import Mathlib

/-!
Verification development for the query_korean_school repository
(src/query_korean_school/tool.py).

The Python module is shallowly embedded here:

* `_to_yyyymmdd` (date normalizer) is modelled on `String`/`List Char`,
  including the semantics of `datetime.strptime` for the eleven format
  strings the source tries, the Korean `re.search` pattern, and the
  digit-stripping fallback.  Only ASCII digits are modelled (the source
  data and all claims use ASCII digits).  `datetime.strftime "%Y%m%d"`
  is modelled as the zero-padded 8-digit rendering, following the format
  table of the Python `datetime` documentation.
* The NEIS response payloads are modelled by the dynamic value type
  `PyVal`; `requests.get(...).json()` is replaced by an explicit response
  argument (one value for the school lookup, one oracle function for the
  schedule lookup), which is the only effect of the network calls on the
  computed results.  Uncaught Python exceptions are modelled by
  `Except String`; caught ones are handled exactly where the source
  catches them.
* Network calls performed by a run are recorded in an explicit `NetCall`
  trace so that claims about which schools are queried are observable.
-/

namespace QKS

/-! ## Embedded definitions (translated from tool.py) -/

def digitVal (c : Char) : Nat := c.toNat - 48

def digitChar (n : Nat) : Char := Char.ofNat (48 + n)

/-- One nibble of `strftime` zero padding: the two decimal digits of `n % 100`. -/
def pad2 (n : Nat) : List Char := [digitChar (n / 10 % 10), digitChar (n % 10)]

/-- Four-digit zero-padded rendering of `n % 10000` (the `%Y` field). -/
def pad4 (n : Nat) : List Char :=
  [digitChar (n / 1000 % 10), digitChar (n / 100 % 10), digitChar (n / 10 % 10),
    digitChar (n % 10)]

/-- Model of `datetime.strftime("%Y%m%d")` on a parsed date. -/
def fmtYmd (y m d : Nat) : String := String.mk (pad4 y ++ pad2 m ++ pad2 d)

/-- Does `tok` occur at the very front of `l`? (segment-at-start test). -/
def begseg : List Char → List Char → Bool
  | [], _ => true
  | _ :: _, [] => false
  | a :: as, b :: bs => a == b && begseg as bs

/-- Does `tok` occur contiguously anywhere inside `l`?  This is the model of
the Python substring operator used by the school level detector. -/
def containsSeg (tok : List Char) : List Char → Bool
  | [] => tok.isEmpty
  | b :: bs => begseg tok (b :: bs) || containsSeg tok bs

/-- Model of the Python `in` substring test on strings. -/
def strContains (hay tok : String) : Bool := containsSeg tok.toList hay.toList

/-- Model of Python `str.strip()` (whitespace trimmed from both ends). -/
def stripList (l : List Char) : List Char :=
  (((l.dropWhile Char.isWhitespace).reverse.dropWhile Char.isWhitespace)).reverse

def pyStrip (s : String) : String := String.mk (stripList s.toList)

/-- Model of Python `str.isdigit()` restricted to ASCII digits. -/
def pyIsDigitStr (l : List Char) : Bool := !l.isEmpty && l.all Char.isDigit

def isLeap (y : Nat) : Bool := (y % 4 == 0 && y % 100 != 0) || y % 400 == 0

def daysInMonth (y m : Nat) : Nat :=
  if m == 2 then (if isLeap y then 29 else 28)
  else if m == 4 || m == 6 || m == 9 || m == 11 then 30
  else 31

/-- The dates accepted by the Python `datetime` constructor (year 1..9999,
month 1..12, day within the Gregorian month). -/
def pyDateOk (y m d : Nat) : Bool :=
  1 ≤ y && y ≤ 9999 && 1 ≤ m && m ≤ 12 && 1 ≤ d && d ≤ daysInMonth y m

def take4D : List Char → Option (Nat × List Char)
  | a :: b :: c :: d :: r =>
    if a.isDigit && b.isDigit && c.isDigit && d.isDigit then
      some (1000 * digitVal a + 100 * digitVal b + 10 * digitVal c + digitVal d, r)
    else Option.none
  | _ => Option.none

def mCands : List Char → List (Nat × List Char)
  | a :: b :: r =>
    (if a == '1' && ('0' ≤ b && b ≤ '2') then [(10 + digitVal b, r)] else [])
      ++ (if a == '0' && ('1' ≤ b && b ≤ '9') then [(digitVal b, r)] else [])
      ++ (if '1' ≤ a && a ≤ '9' then [(digitVal a, b :: r)] else [])
  | [a] => if '1' ≤ a && a ≤ '9' then [(digitVal a, [])] else []
  | [] => []

def dCands : List Char → List (Nat × List Char)
  | a :: b :: r =>
    (if a == '3' && ('0' ≤ b && b ≤ '1') then [(30 + digitVal b, r)] else [])
      ++ (if ('1' ≤ a && a ≤ '2') && b.isDigit then [(10 * digitVal a + digitVal b, r)] else [])
      ++ (if a == '0' && ('1' ≤ b && b ≤ '9') then [(digitVal b, r)] else [])
      ++ (if '1' ≤ a && a ≤ '9' then [(digitVal a, b :: r)] else [])
  | [a] => if '1' ≤ a && a ≤ '9' then [(digitVal a, [])] else []
  | [] => []

def hCands : List Char → List (Nat × List Char)
  | a :: b :: r =>
    (if a == '2' && ('0' ≤ b && b ≤ '3') then [(20 + digitVal b, r)] else [])
      ++ (if ('0' ≤ a && a ≤ '1') && b.isDigit then [(10 * digitVal a + digitVal b, r)] else [])
      ++ (if a.isDigit then [(digitVal a, b :: r)] else [])
  | [a] => if a.isDigit then [(digitVal a, [])] else []
  | [] => []

def minCands : List Char → List (Nat × List Char)
  | a :: b :: r =>
    (if ('0' ≤ a && a ≤ '5') && b.isDigit then [(10 * digitVal a + digitVal b, r)] else [])
      ++ (if a.isDigit then [(digitVal a, b :: r)] else [])
  | [a] => if a.isDigit then [(digitVal a, [])] else []
  | [] => []

/-- First candidate for which the continuation succeeds (regex backtracking). -/
def firstSome {α β : Type} (f : α → Option β) : List α → Option β
  | [] => Option.none
  | x :: xs =>
    match f x with
    | some y => some y
    | Option.none => firstSome f xs

/-- The time separator of the format: a whitespace run or a literal T. -/
inductive TSep where
  | ws
  | litT
deriving DecidableEq, Repr

inductive TimeSpec where
  | noTime
  | hm (ts : TSep)
  | hms (ts : TSep)
deriving DecidableEq, Repr

def tsepP : TSep → List Char → Option (List Char)
  | .ws, c :: r => if c.isWhitespace then some (r.dropWhile Char.isWhitespace) else Option.none
  | .ws, [] => Option.none
  | .litT, c :: r => if c == 'T' then some r else Option.none
  | .litT, [] => Option.none

def colonP : List Char → Option (List Char)
  | c :: r => if c == ':' then some r else Option.none
  | [] => Option.none

def timeMatch : TimeSpec → List Char → Option (List Char)
  | .noTime, l => some l
  | .hm ts, l =>
    (tsepP ts l).bind fun l1 =>
      firstSome (fun hc =>
        (colonP hc.2).bind fun l3 =>
          firstSome (fun mc => some mc.2) (minCands l3)) (hCands l1)
  | .hms ts, l =>
    (tsepP ts l).bind fun l1 =>
      firstSome (fun hc =>
        (colonP hc.2).bind fun l3 =>
          firstSome (fun mc =>
            (colonP mc.2).bind fun l5 =>
              firstSome (fun sc => some sc.2) (minCands l5)) (minCands l3)) (hCands l1)

def sepP : Option Char → List Char → Option (List Char)
  | Option.none, l => some l
  | some c, x :: r => if x == c then some r else Option.none
  | some _, [] => Option.none

/-- One of the eleven `strptime` format strings used by the source:
`%Y`, an optional separator, `%m`, the separator again, `%d`, then an
optional time part. -/
structure Fmt where
  sep : Option Char
  time : TimeSpec
deriving DecidableEq, Repr

/-- The regex match of a format against the input (unanchored on the right):
the parsed year/month/day and the unconsumed rest, or no match at all. -/
def fmtMatch (f : Fmt) (s : List Char) : Option (Nat × Nat × Nat × List Char) :=
  (take4D s).bind fun yr =>
    (sepP f.sep yr.2).bind fun r2 =>
      firstSome (fun mc =>
        (sepP f.sep mc.2).bind fun r4 =>
          firstSome (fun dc =>
            (timeMatch f.time dc.2).map fun r6 => (yr.1, mc.1, dc.1, r6)) (dCands r4)) (mCands r2)

inductive StrpRes where
  | ok (y m d : Nat)
  | noMatch
  | leftover (rest : List Char)
  | badDate (y m d : Nat)
deriving DecidableEq, Repr

/-- Model of `datetime.strptime(s, fmt)` for the format family above:
no regex match raises a time-data mismatch, a partial match raises
`unconverted data remains`, and a full match with an impossible calendar
date raises from the `datetime` constructor. -/
def strptime (f : Fmt) (s : List Char) : StrpRes :=
  match fmtMatch f s with
  | Option.none => .noMatch
  | some (y, m, d, rest) =>
    if rest.isEmpty then
      if pyDateOk y m d then .ok y m d else .badDate y m d
    else .leftover rest

def compactFmt : Fmt := { sep := Option.none, time := .noTime }

/-- The three date-only formats, in the order the source tries them. -/
def dateOnlyFmts : List Fmt :=
  [{ sep := some '-', time := .noTime },
   { sep := some '/', time := .noTime },
   { sep := some '.', time := .noTime }]

/-- The eight date+time formats, in the order the source tries them. -/
def timeFmts : List Fmt :=
  [{ sep := some '-', time := .hm .ws },
   { sep := some '-', time := .hms .ws },
   { sep := some '/', time := .hm .ws },
   { sep := some '/', time := .hms .ws },
   { sep := some '.', time := .hm .ws },
   { sep := some '.', time := .hms .ws },
   { sep := some '-', time := .hm .litT },
   { sep := some '-', time := .hms .litT }]

/-- The `for fmt in (...): try ... except ValueError: pass` loops: the first
format whose parse fully succeeds wins; every failure kind is caught. -/
def tryFmts (fs : List Fmt) (s : List Char) : Option (Nat × Nat × Nat) :=
  match fs with
  | [] => Option.none
  | f :: rest =>
    match strptime f s with
    | .ok y m d => some (y, m, d)
    | _ => tryFmts rest s

def wsDrop (l : List Char) : List Char := l.dropWhile Char.isWhitespace

def charP (c : Char) : List Char → Option (List Char)
  | x :: r => if x == c then some r else Option.none
  | [] => Option.none

/-- Greedy 1-or-2 digit group candidates, regex order. -/
def d12Cands : List Char → List (Nat × List Char)
  | a :: b :: r =>
    (if a.isDigit && b.isDigit then [(10 * digitVal a + digitVal b, r)] else [])
      ++ (if a.isDigit then [(digitVal a, b :: r)] else [])
  | [a] => if a.isDigit then [(digitVal a, [])] else []
  | [] => []

def koreanAt (l : List Char) : Option (Nat × Nat × Nat) :=
  (take4D l).bind fun yr =>
    (charP '년' (wsDrop yr.2)).bind fun r2 =>
      firstSome (fun mc =>
        (charP '월' (wsDrop mc.2)).bind fun r4 =>
          firstSome (fun dc =>
            (charP '일' (wsDrop dc.2)).map fun _ => (yr.1, mc.1, dc.1)) (d12Cands (wsDrop r4)))
        (d12Cands (wsDrop r2))

/-- `re.search`: earliest starting position wins. -/
def koreanSearch : List Char → Option (Nat × Nat × Nat)
  | [] => Option.none
  | c :: rest =>
    match koreanAt (c :: rest) with
    | some v => some v
    | Option.none => koreanSearch rest

/-- The ValueError raised out of `_to_yyyymmdd`, by failure site.  Only the
final fallback raise interpolates the caller-supplied input string. -/
inductive DateError where
  | emptyInput
  | compactNoMatch (s : String)
  | compactLeftover (rest : String)
  | compactBadDate (y m d : Nat)
  | koreanBadDate (y m d : Nat)
  | unsupported (orig : String)
deriving DecidableEq, Repr

/-- The message of each ValueError (punctuation simplified: quote characters
around interpolated values are omitted). -/
def errMessage : DateError → String
  | .emptyInput => "빈 날짜 문자열입니다."
  | .compactNoMatch s => "time data " ++ s ++ " does not match format %Y%m%d"
  | .compactLeftover rest => "unconverted data remains: " ++ rest
  | .compactBadDate y _ _ =>
    if y == 0 then "year 0 is out of range" else "day is out of range for month"
  | .koreanBadDate y m _ =>
    if y == 0 then "year 0 is out of range"
    else if m == 0 || 12 < m then "month must be in 1..12"
    else "day is out of range for month"
  | .unsupported orig => "지원하지 않는 날짜 형식입니다: " ++ orig

/-- The body of `_to_yyyymmdd` applied after stripping: `orig` is the
caller-supplied string (used only by the final raise), `l` the stripped
character list. -/
def normCore (orig : String) (l : List Char) : Except DateError String :=
  if l.isEmpty then .error .emptyInput
  else if pyIsDigitStr l && l.length == 8 then
    match strptime compactFmt l with
    | .ok _ _ _ => .ok (String.mk l)
    | .noMatch => .error (.compactNoMatch (String.mk l))
    | .leftover r => .error (.compactLeftover (String.mk r))
    | .badDate y m d => .error (.compactBadDate y m d)
  else
    match tryFmts dateOnlyFmts l with
    | some (y, m, d) => .ok (fmtYmd y m d)
    | Option.none =>
      match tryFmts timeFmts l with
      | some (y, m, d) => .ok (fmtYmd y m d)
      | Option.none =>
        match koreanSearch l with
        | some (y, m, d) =>
          if pyDateOk y m d then .ok (fmtYmd y m d) else .error (.koreanBadDate y m d)
        | Option.none =>
          let digits := l.filter Char.isDigit
          if 8 ≤ digits.length then
            match strptime compactFmt (digits.take 8) with
            | .ok _ _ _ => .ok (String.mk (digits.take 8))
            | _ => .error (.unsupported orig)
          else .error (.unsupported orig)

/-- Shallow embedding of `_to_yyyymmdd` from tool.py lines 19-81. -/
def toYyyymmdd (date_str : String) : Except DateError String :=
  normCore date_str (stripList date_str.toList)

inductive PyVal where
  | none
  | str (s : String)
  | int (n : Int)
  | bool (b : Bool)
  | list (xs : List PyVal)
  | dict (entries : List (String × PyVal))

def pyTypeName : PyVal → String
  | .none => "NoneType"
  | .str _ => "str"
  | .int _ => "int"
  | .bool _ => "bool"
  | .list _ => "list"
  | .dict _ => "dict"

def lookupEntry (k : String) : List (String × PyVal) → Option PyVal
  | [] => Option.none
  | e :: es => if e.1 == k then some e.2 else lookupEntry k es

/-- Model of `v.get(k, default)`: total on dicts, AttributeError otherwise. -/
def pyGetD (v : PyVal) (k : String) (default : PyVal) : Except String PyVal :=
  match v with
  | .dict es => .ok ((lookupEntry k es).getD default)
  | _ => .error (pyTypeName v ++ " object has no attribute get")

/-- Model of `v[-1]`. -/
def pyLast (v : PyVal) : Except String PyVal :=
  match v with
  | .list xs =>
    match xs.getLast? with
    | some x => .ok x
    | Option.none => .error "list index out of range"
  | .str s =>
    match s.toList.getLast? with
    | some c => .ok (.str (String.mk [c]))
    | Option.none => .error "string index out of range"
  | .dict _ => .error "KeyError: -1"
  | other => .error (pyTypeName other ++ " object is not subscriptable")

/-- Model of `for x in v`: the sequence of iterates, or a TypeError. -/
def pyIter (v : PyVal) : Except String (List PyVal) :=
  match v with
  | .list xs => .ok xs
  | .str s => .ok (s.toList.map fun c => .str (String.mk [c]))
  | .dict es => .ok (es.map fun e => .str e.1)
  | other => .error (pyTypeName other ++ " object is not iterable")

/-- Model of `str(v)` as far as the flag comparison needs it. -/
def pyStr : PyVal → String
  | .none => "None"
  | .str s => s
  | .int n => toString n
  | .bool b => if b then "True" else "False"
  | .list _ => "[repr]"
  | .dict _ => "\x7brepr\x7d"

/-- Model of `v == t` for a string literal `t` on the right. -/
def pyEqStr (v : PyVal) (t : String) : Bool :=
  match v with
  | .str s => s == t
  | _ => false

def pyIsNone : PyVal → Bool
  | .none => true
  | _ => false

/-- Model of `str.upper()` (ASCII case mapping, which covers the Y/N flag
values the comparison is about). -/
def pyToUpper (s : String) : String := String.mk (s.toList.map Char.toUpper)

/-- A grade applicability flag: true exactly when `str(raw).upper() == "Y"`. -/
def yFlag (v : PyVal) : Bool := pyToUpper (pyStr v) == "Y"

structure SchoolInfoResult where
  valid : Bool
  message : PyVal
  school_num : Nat
  school_name : List PyVal
  school_code : List PyVal
  org_name : List PyVal
  org_code : List PyVal

def missingKeyMsg : String :=
  "Missing NEIS service key. Set NEIS_SERVICE_KEY or SERVICE_KEY in environment."

def infoMissingKey : SchoolInfoResult :=
  { valid := false, message := .str missingKeyMsg, school_num := 0,
    school_name := [], school_code := [], org_name := [], org_code := [] }

structure InfoAcc where
  school_name : List PyVal
  school_code : List PyVal
  org_name : List PyVal
  org_code : List PyVal

def emptyInfoAcc : InfoAcc := ⟨[], [], [], []⟩

/-- One iteration of the row loop of `get_school_info`.  The only way a
statement inside the loop body can raise is the first `.get` on a non-dict
row, so no partial appends happen within a row. -/
def infoRowStep (acc : InfoAcc) (r : PyVal) : Except String InfoAcc := do
  let nm ← pyGetD r "SCHUL_NM" .none
  let code ← pyGetD r "SD_SCHUL_CODE" .none
  let org ← pyGetD r "ATPT_OFCDC_SC_NM" .none
  let orgCode ← pyGetD r "ATPT_OFCDC_SC_CODE" .none
  return { school_name := acc.school_name ++ [nm],
           school_code := acc.school_code ++ [code],
           org_name := acc.org_name ++ [org],
           org_code := acc.org_code ++ [orgCode] }

/-- The row loop: runs rows in order, stopping at the first raising row and
keeping the state accumulated so far. -/
def infoRows : List PyVal → InfoAcc → InfoAcc × Option String
  | [], acc => (acc, Option.none)
  | r :: rs, acc =>
    match infoRowStep acc r with
    | .ok acc2 => infoRows rs acc2
    | .error e => (acc, some e)

/-- The extraction `data.get("schoolInfo", [])[-1].get("row", [])` followed by
setting up the iteration, all inside the `try`. -/
def infoExtract (data : PyVal) : Except String (List PyVal) := do
  let sc ← pyGetD data "schoolInfo" (.list [])
  let lastE ← pyLast sc
  let rowv ← pyGetD lastE "row" (.list [])
  pyIter rowv

/-- Shallow embedding of `get_school_info`; `data` is the parsed JSON body of
the school-lookup response.  An outer `.error` is an uncaught exception
(non-dict payload). -/
def get_school_info (serviceKey : String) (data : PyVal) (school_name : String) :
    Except String SchoolInfoResult :=
  if serviceKey == "" then .ok infoMissingKey
  else
    match pyGetD data "RESULT" (.dict []) with
    | .error e => .error e
    | .ok resDict =>
      match pyGetD resDict "CODE" .none with
      | .error e => .error e
      | .ok code =>
        if pyIsNone code then
          match infoExtract data with
          | .error e =>
            .ok { valid := false, message := .str ("Error parsing school info: " ++ e),
                  school_num := 0, school_name := [], school_code := [],
                  org_name := [], org_code := [] }
          | .ok rows =>
            match infoRows rows emptyInfoAcc with
            | (acc, Option.none) =>
              .ok { valid := true, message := .str "Success to find",
                    school_num := rows.length, school_name := acc.school_name,
                    school_code := acc.school_code, org_name := acc.org_name,
                    org_code := acc.org_code }
            | (_, some e) =>
              .ok { valid := false, message := .str ("Error parsing school info: " ++ e),
                    school_num := 0, school_name := [], school_code := [],
                    org_name := [], org_code := [] }
        else
          match pyGetD resDict "MESSAGE" .none with
          | .error e => .error e
          | .ok msg =>
            .ok { valid := false, message := msg, school_num := 0,
                  school_name := [], school_code := [], org_name := [], org_code := [] }

structure ScheduleResult where
  valid : Bool
  message : PyVal
  schedule_num : Nat
  event_date : List PyVal
  event_name : List PyVal
  event_type : List PyVal
  event_content : List PyVal
  valid_grade : List (List Bool)

def schedMissingKey : ScheduleResult :=
  { valid := false, message := .str missingKeyMsg, schedule_num := 0,
    event_date := [], event_name := [], event_type := [], event_content := [],
    valid_grade := [[], [], [], [], [], []] }

structure SchedAcc where
  event_date : List PyVal
  event_name : List PyVal
  event_type : List PyVal
  event_content : List PyVal
  g1 : List Bool
  g2 : List Bool
  g3 : List Bool
  g4 : List Bool
  g5 : List Bool
  g6 : List Bool

def emptySchedAcc : SchedAcc := ⟨[], [], [], [], [], [], [], [], [], []⟩

/-- One iteration of the row loop of `get_school_schedule`; as in
`infoRowStep`, only the first `.get` of a non-dict row can raise, before any
append of the row happened. -/
def schedRowStep (acc : SchedAcc) (r : PyVal) : Except String SchedAcc := do
  let date ← pyGetD r "AA_YMD" .none
  let nm ← pyGetD r "EVENT_NM" .none
  let ty ← pyGetD r "SBTR_DD_SC_NM" .none
  let ct ← pyGetD r "EVENT_CNTNT" .none
  let f1 ← pyGetD r "ONE_GRADE_EVENT_YN" (.str "")
  let f2 ← pyGetD r "TW_GRADE_EVENT_YN" (.str "")
  let f3 ← pyGetD r "THREE_GRADE_EVENT_YN" (.str "")
  let f4 ← pyGetD r "FR_GRADE_EVENT_YN" (.str "")
  let f5 ← pyGetD r "FIV_GRADE_EVENT_YN" (.str "")
  let f6 ← pyGetD r "SIX_GRADE_EVENT_YN" (.str "")
  return { event_date := acc.event_date ++ [date],
           event_name := acc.event_name ++ [nm],
           event_type := acc.event_type ++ [ty],
           event_content := acc.event_content ++ [ct],
           g1 := acc.g1 ++ [yFlag f1], g2 := acc.g2 ++ [yFlag f2],
           g3 := acc.g3 ++ [yFlag f3], g4 := acc.g4 ++ [yFlag f4],
           g5 := acc.g5 ++ [yFlag f5], g6 := acc.g6 ++ [yFlag f6] }

def schedRows : List PyVal → SchedAcc → SchedAcc × Option String
  | [], acc => (acc, Option.none)
  | r :: rs, acc =>
    match schedRowStep acc r with
    | .ok acc2 => schedRows rs acc2
    | .error e => (acc, some e)

def schedExtract (data : PyVal) : Except String (List PyVal) := do
  let sc ← pyGetD data "SchoolSchedule" (.list [])
  let lastE ← pyLast sc
  let rowv ← pyGetD lastE "row" (.list [])
  pyIter rowv

def accGrades (acc : SchedAcc) : List (List Bool) :=
  [acc.g1, acc.g2, acc.g3, acc.g4, acc.g5, acc.g6]

/-- The result returned from the `except` branch of `get_school_schedule`:
`valid`, `message` and `schedule_num` are reset, but the accumulated lists
are returned as they stand (matching the source, which does not clear
them). -/
def schedFail (acc : SchedAcc) (e : String) : ScheduleResult :=
  { valid := false, message := .str ("Error parsing school schedule: " ++ e),
    schedule_num := 0, event_date := acc.event_date, event_name := acc.event_name,
    event_type := acc.event_type, event_content := acc.event_content,
    valid_grade := accGrades acc }

/-- Shallow embedding of `get_school_schedule`; `data` is the parsed JSON body
of the schedule response.  Note that the `except` branch resets `valid`,
`message` and `schedule_num` but, unlike `get_school_info`, does not clear
the accumulated event and grade lists. -/
def get_school_schedule (serviceKey : String) (data : PyVal)
    (_school_code _org_code : PyVal) (_from_date _to_date : String) :
    Except String ScheduleResult :=
  if serviceKey == "" then .ok schedMissingKey
  else
    match pyGetD data "RESULT" (.dict []) with
    | .error e => .error e
    | .ok resDict =>
      match pyGetD resDict "CODE" .none with
      | .error e => .error e
      | .ok code =>
        if pyIsNone code then
          match schedExtract data with
          | .error e => .ok (schedFail emptySchedAcc e)
          | .ok rows =>
            match schedRows rows emptySchedAcc with
            | (acc, Option.none) =>
              .ok { valid := true, message := .str "Success to find",
                    schedule_num := rows.length, event_date := acc.event_date,
                    event_name := acc.event_name, event_type := acc.event_type,
                    event_content := acc.event_content, valid_grade := accGrades acc }
            | (acc, some e) => .ok (schedFail acc e)
        else
          match pyGetD resDict "MESSAGE" .none with
          | .error e => .error e
          | .ok msg =>
            .ok { valid := false, message := msg, schedule_num := 0,
                  event_date := [], event_name := [], event_type := [], event_content := [],
                  valid_grade := [[], [], [], [], [], []] }

/-- The internal 0-based grade mapping of `get_school_timetable` line 224. -/
def target_grade (grade : List Int) : List Int :=
  grade.map fun g => max 0 (min 5 (g - 1))

structure TimetableItem where
  school_name : PyVal
  event_date : PyVal
  event_name : PyVal
  event_type : PyVal
  event_content : PyVal
  grade : Int

/-- An observable network call: one school lookup or one schedule lookup. -/
inductive NetCall where
  | info (school_name : String)
  | sched (school_code org_code : PyVal)

/-- Row `sch_idx` applicability for 0-based grade `g` as read by the
aggregator (`schedule_info["valid_grade"][g][sch_idx]`); the defaults are
immaterial because the aggregator only reads indices shown in bounds. -/
def gradeFlag (sched : ScheduleResult) (g : Int) (i : Nat) : Bool :=
  ((sched.valid_grade.getD g.toNat []).getD i false)

/-- The organization filter of line 229: accept when `target_org` is `None`
or equals the organization name of match `idx`. -/
def acceptMatch (r : SchoolInfoResult) (target_org : Option String) (idx : Nat) : Bool :=
  match target_org with
  | Option.none => true
  | some t => pyEqStr (r.org_name.getD idx .none) t

/-- The flattening of lines 235-245: grade-major, event-minor. -/
def emitItems (r : SchoolInfoResult) (idx : Nat) (sched : ScheduleResult)
    (tg : List Int) : List TimetableItem :=
  tg.flatMap fun g =>
    (List.range sched.schedule_num).filterMap fun i =>
      if gradeFlag sched g i then
        some { school_name := r.school_name.getD idx .none,
               event_date := sched.event_date.getD i .none,
               event_name := sched.event_name.getD i .none,
               event_type := sched.event_type.getD i .none,
               event_content := sched.event_content.getD i .none,
               grade := g + 1 }
      else Option.none

/-- The match loop of lines 227-246: the first index accepted by the filter
is fetched (and then the loop `break`s); rejected indices are skipped. -/
def ttLoop (serviceKey : String) (schedResp : PyVal → PyVal → PyVal)
    (r : SchoolInfoResult) (from_date to_date : String) (tg : List Int)
    (target_org : Option String) :
    List Nat → List NetCall × Except String (List TimetableItem)
  | [] => ([], .ok [])
  | idx :: rest =>
    if acceptMatch r target_org idx then
      match get_school_schedule serviceKey
          (schedResp (r.school_code.getD idx .none) (r.org_code.getD idx .none))
          (r.school_code.getD idx .none) (r.org_code.getD idx .none)
          from_date to_date with
      | .error e =>
        ([.sched (r.school_code.getD idx .none) (r.org_code.getD idx .none)], .error e)
      | .ok sched =>
        ([.sched (r.school_code.getD idx .none) (r.org_code.getD idx .none)],
         .ok (if sched.valid && decide (0 < sched.schedule_num)
              then emitItems r idx sched tg else []))
    else ttLoop serviceKey schedResp r from_date to_date tg target_org rest

/-- Shallow embedding of `get_school_timetable`.  `infoResp` is the parsed
school-lookup response body; `schedResp` maps the (school code, org code)
pair of a match to the schedule response body the API would return for it.
The first component lists the network calls made, in order. -/
def get_school_timetable (serviceKey : String) (infoResp : PyVal)
    (schedResp : PyVal → PyVal → PyVal) (school_name : String)
    (from_date to_date : String) (grade : List Int) (target_org : Option String) :
    List NetCall × Except String (List TimetableItem) :=
  match get_school_info serviceKey infoResp school_name with
  | .error e => ([.info school_name], .error e)
  | .ok r =>
    if r.valid && decide (0 < r.school_num) then
      (.info school_name
         :: (ttLoop serviceKey schedResp r from_date to_date (target_grade grade) target_org
              (List.range r.school_num)).1,
       (ttLoop serviceKey schedResp r from_date to_date (target_grade grade) target_org
          (List.range r.school_num)).2)
    else ([.info school_name], .ok [])

/-- Shallow embedding of `_detect_school_level`. -/
def _detect_school_level (school_name : String) : Option String :=
  let name := pyStrip school_name
  if strContains name "초등학교" then some "초등학교"
  else if strContains name "중학교" then some "중학교"
  else if strContains name "고등학교" then some "고등학교"
  else Option.none

/-- The grade defaulting of `_run` lines 296-304 for an omitted grade list. -/
def defaultGradesFor (school_name : String) : List Int :=
  if _detect_school_level school_name == some "초등학교" then [1, 2, 3, 4, 5, 6]
  else [1, 2, 3]

/-- The value returned by `_run`: either the date-format error object
(with its always-empty `schedules` list) or the aggregator output. -/
inductive RunValue where
  | errObj (message : String) (schedules : List TimetableItem)
  | items (xs : List TimetableItem)

/-- Shallow embedding of `QueryKoreanSchoolTool._run`, with the network-call
trace as first component. -/
def tool_run (serviceKey : String) (infoResp : PyVal)
    (schedResp : PyVal → PyVal → PyVal) (school_name from_date to_date : String)
    (grade : Option (List Int)) (target_org : Option String) :
    List NetCall × Except String RunValue :=
  let grades :=
    match grade with
    | Option.none => defaultGradesFor school_name
    | some g => g
  match toYyyymmdd from_date with
  | .error e => ([], .ok (.errObj ("날짜 형식 오류: " ++ errMessage e) []))
  | .ok from_norm =>
    match toYyyymmdd to_date with
    | .error e => ([], .ok (.errObj ("날짜 형식 오류: " ++ errMessage e) []))
    | .ok to_norm =>
      let lr := get_school_timetable serviceKey infoResp schedResp school_name
        from_norm to_norm grades target_org
      (lr.1, lr.2.map .items)

def tsChar : TSep → Char
  | .ws => ' '
  | .litT => 'T'

/-- The unpadded rendering of a 1-or-2 digit number (as written in the
Korean long form). -/
def natC (n : Nat) : List Char := if n ≤ 9 then [digitChar n] else pad2 n

/-- The Korean long-form rendering of a date, with single spaces after the
year and month units and month/day written without padding. -/
def koreanRender (y m d : Nat) : List Char :=
  pad4 y ++ ('년' :: (' ' :: (natC m ++ ('월' :: (' ' :: (natC d ++ ['일']))))))

inductive SepKind where
  | dash
  | slash
  | dot

def sepChar : SepKind → Char
  | .dash => '-'
  | .slash => '/'
  | .dot => '.'

/-- A separated date rendering followed by an arbitrary tail. -/
def dateSepT (c : Char) (y m d : Nat) (tail : List Char) : List Char :=
  pad4 y ++ (c :: (pad2 m ++ (c :: (pad2 d ++ tail))))

/-- A trailing HH:MM time-of-day part. -/
def hmTail (ts : TSep) (h mi : Nat) (rest : List Char) : List Char :=
  tsChar ts :: (pad2 h ++ (':' :: (pad2 mi ++ rest)))

/-- A trailing HH:MM:SS time-of-day part. -/
def hmsTail (ts : TSep) (h mi sec : Nat) (rest : List Char) : List Char :=
  hmTail ts h mi (':' :: (pad2 sec ++ rest))

/-- The accepted input representations of a calendar date named by the spec:
the compact 8-digit form, the three separator forms, the separator forms
with a trailing HH:MM or HH:MM:SS time (space-separated for all three
separators, T-separated for the dash form, as in the format list of the
source), and the Korean long form. -/
inductive DateRep where
  | compact
  | sepOnly (k : SepKind)
  | sepTime (k : SepKind) (withSec : Bool)
  | isoT (withSec : Bool)
  | korean

def renderRep (y m d h mi sec : Nat) : DateRep → List Char
  | .compact => pad4 y ++ (pad2 m ++ pad2 d)
  | .sepOnly k => dateSepT (sepChar k) y m d []
  | .sepTime k false => dateSepT (sepChar k) y m d (hmTail .ws h mi [])
  | .sepTime k true => dateSepT (sepChar k) y m d (hmsTail .ws h mi sec [])
  | .isoT false => dateSepT '-' y m d (hmTail .litT h mi [])
  | .isoT true => dateSepT '-' y m d (hmsTail .litT h mi sec [])
  | .korean => koreanRender y m d

def val2 (a b : Char) : Nat := 10 * digitVal a + digitVal b

def val4 (a b c d : Char) : Nat :=
  1000 * digitVal a + 100 * digitVal b + 10 * digitVal c + digitVal d

/-- An 8-character all-ASCII-digit string encoding a valid calendar date
(the precondition of the spec sentence about compact inputs). -/
def compactValidDate (s : String) : Bool :=
  match s.toList with
  | [a, b, c, d, e, f, g, i] =>
    ([a, b, c, d, e, f, g, i].all Char.isDigit)
      && pyDateOk (val4 a b c d) (val2 e f) (val2 g i)
  | _ => false

def isPyDict : PyVal → Bool
  | .dict _ => true
  | _ => false

/-- The accumulator state after one successfully parsed (dict) row. -/
def schedRowOut (acc : SchedAcc) (es : List (String × PyVal)) : SchedAcc :=
  { event_date := acc.event_date ++ [(lookupEntry "AA_YMD" es).getD .none]
    event_name := acc.event_name ++ [(lookupEntry "EVENT_NM" es).getD .none]
    event_type := acc.event_type ++ [(lookupEntry "SBTR_DD_SC_NM" es).getD .none]
    event_content := acc.event_content ++ [(lookupEntry "EVENT_CNTNT" es).getD .none]
    g1 := acc.g1 ++ [yFlag ((lookupEntry "ONE_GRADE_EVENT_YN" es).getD (.str ""))]
    g2 := acc.g2 ++ [yFlag ((lookupEntry "TW_GRADE_EVENT_YN" es).getD (.str ""))]
    g3 := acc.g3 ++ [yFlag ((lookupEntry "THREE_GRADE_EVENT_YN" es).getD (.str ""))]
    g4 := acc.g4 ++ [yFlag ((lookupEntry "FR_GRADE_EVENT_YN" es).getD (.str ""))]
    g5 := acc.g5 ++ [yFlag ((lookupEntry "FIV_GRADE_EVENT_YN" es).getD (.str ""))]
    g6 := acc.g6 ++ [yFlag ((lookupEntry "SIX_GRADE_EVENT_YN" es).getD (.str ""))] }

def c10row : PyVal :=
  .dict [("AA_YMD", .str "20251015"), ("EVENT_NM", .str "개교기념일"),
    ("ONE_GRADE_EVENT_YN", .str "Y"), ("TW_GRADE_EVENT_YN", .str "y")]

def c10resp : PyVal :=
  .dict [("SchoolSchedule", .list [.dict [("row", .list [c10row])]])]

def c10res : ScheduleResult :=
  { valid := true, message := .str "Success to find", schedule_num := 1,
    event_date := [.str "20251015"], event_name := [.str "개교기념일"],
    event_type := [.none], event_content := [.none],
    valid_grade := [[true], [true], [false], [false], [false], [false]] }

def c1row : PyVal :=
  .dict [("AA_YMD", .str "20251015"), ("EVENT_NM", .str "개교기념일"),
    ("ONE_GRADE_EVENT_YN", .str "Y")]

def c1resp : PyVal :=
  .dict [("SchoolSchedule", .list [.dict [("row", .list [c1row, .int 7])]])]

def c2resp : PyVal := .dict [("schoolInfo", .list [.dict [("head", .int 1)]])]

def c3row1 : PyVal :=
  .dict [("SCHUL_NM", .str "은빛초등학교"), ("SD_SCHUL_CODE", .str "1111"),
    ("ATPT_OFCDC_SC_NM", .str "서울특별시교육청"), ("ATPT_OFCDC_SC_CODE", .str "B10")]

def c3row2 : PyVal :=
  .dict [("SCHUL_NM", .str "은빛초등학교"), ("SD_SCHUL_CODE", .str "7010574"),
    ("ATPT_OFCDC_SC_NM", .str "경기도교육청"), ("ATPT_OFCDC_SC_CODE", .str "J10")]

def c3resp : PyVal :=
  .dict [("schoolInfo", .list [.dict [("row", .list [c3row1, c3row2])]])]

def c3info : SchoolInfoResult :=
  { valid := true, message := .str "Success to find", school_num := 2,
    school_name := [.str "은빛초등학교", .str "은빛초등학교"],
    school_code := [.str "1111", .str "7010574"],
    org_name := [.str "서울특별시교육청", .str "경기도교육청"],
    org_code := [.str "B10", .str "J10"] }

/-! ## Properties and claim theorems -/

example : toYyyymmdd "20251106" = .ok "20251106" := rfl

example : toYyyymmdd "2025-11-06" = .ok "20251106" := rfl

example : toYyyymmdd "2025/11/06 09:30" = .ok "20251106" := rfl

example : toYyyymmdd "2025.11.06 09:30:15" = .ok "20251106" := rfl

example : toYyyymmdd "2025-11-06T09:30:15" = .ok "20251106" := rfl

example : toYyyymmdd "2025년 11월 6일" = .ok "20251106" := rfl

example : toYyyymmdd "20251332" = .error (.compactLeftover "32") := rfl

example : toYyyymmdd "abc" = .error (.unsupported "abc") := rfl

example : toYyyymmdd "" = .error .emptyInput := rfl

example : toYyyymmdd "20250230" = .error (.compactBadDate 2025 2 30) := rfl

example : toYyyymmdd "x2025a11b06y" = .ok "20251106" := rfl

example : toYyyymmdd "2025년 13월 1일" = .error (.koreanBadDate 2025 13 1) := rfl

example :
    Except.map (fun r => (r.valid, r.school_num, r.school_name))
      (get_school_info "K" (.dict [("schoolInfo", .list [.dict [("head", .int 1)]])]) "x")
      = .ok (true, 0, []) := rfl

example :
    Except.map (fun r => (r.valid, r.school_num))
      (get_school_info "K" (.dict []) "x") = .ok (false, 0) := rfl

theorem digitChar_isDigit {k : Nat} (hk : k ≤ 9) : (digitChar k).isDigit = true := by
  interval_cases k <;> decide

theorem digitVal_digitChar {k : Nat} (hk : k ≤ 9) : digitVal (digitChar k) = k := by
  interval_cases k <;> decide

theorem digitChar_not_ws {k : Nat} (hk : k ≤ 9) : (digitChar k).isWhitespace = false := by
  interval_cases k <;> decide

theorem digitChar_digitVal {c : Char} (hc : c.isDigit = true) : digitChar (digitVal c) = c := by
  simp [Char.isDigit] at hc
  obtain ⟨h1, h2⟩ := hc
  have ha : 48 ≤ c.toNat := h1
  have : 48 + digitVal c = c.toNat := by
    simp only [digitVal]; omega
  rw [digitChar, this, Char.ofNat_toNat]

theorem digitVal_lt_ten {c : Char} (hc : c.isDigit = true) : digitVal c ≤ 9 := by
  simp [Char.isDigit] at hc
  obtain ⟨h1, h2⟩ := hc
  have ha : 48 ≤ c.toNat := h1
  have hb : c.toNat ≤ 57 := h2
  simp only [digitVal]
  omega

theorem take4D_pad4 {y : Nat} (hy : y ≤ 9999) (r : List Char) :
    take4D (pad4 y ++ r) = some (y, r) := by
  have h1 : y / 1000 % 10 ≤ 9 := Nat.le_of_lt_succ (Nat.mod_lt _ (by norm_num))
  have h2 : y / 100 % 10 ≤ 9 := Nat.le_of_lt_succ (Nat.mod_lt _ (by norm_num))
  have h3 : y / 10 % 10 ≤ 9 := Nat.le_of_lt_succ (Nat.mod_lt _ (by norm_num))
  have h4 : y % 10 ≤ 9 := Nat.le_of_lt_succ (Nat.mod_lt _ (by norm_num))
  simp only [pad4, List.cons_append, List.nil_append, take4D,
    digitChar_isDigit h1, digitChar_isDigit h2, digitChar_isDigit h3, digitChar_isDigit h4,
    Bool.and_self, if_true, digitVal_digitChar h1, digitVal_digitChar h2,
    digitVal_digitChar h3, digitVal_digitChar h4]
  simp only [Option.some.injEq, Prod.mk.injEq, and_true]
  omega

theorem mCands_pad2 {m : Nat} (h1 : 1 ≤ m) (h2 : m ≤ 12) (r : List Char) :
    mCands (pad2 m ++ r)
      = (m, r) :: (if m ≤ 9 then [] else [(1, digitChar (m - 10) :: r)]) := by
  interval_cases m <;> simp [pad2, mCands, digitVal, digitChar]

theorem dCands_pad2 {d : Nat} (h1 : 1 ≤ d) (h2 : d ≤ 31) (r : List Char) :
    dCands (pad2 d ++ r)
      = (d, r) :: (if d ≤ 9 then [] else [(d / 10, digitChar (d % 10) :: r)]) := by
  interval_cases d <;> simp [pad2, dCands, digitVal, digitChar]

theorem hCands_pad2 {h : Nat} (h2 : h ≤ 23) (r : List Char) :
    hCands (pad2 h ++ r) = [(h, r), (h / 10, digitChar (h % 10) :: r)] := by
  interval_cases h <;> simp [pad2, hCands, digitVal, digitChar]

theorem minCands_pad2 {n : Nat} (h2 : n ≤ 59) (r : List Char) :
    minCands (pad2 n ++ r) = [(n, r), (n / 10, digitChar (n % 10) :: r)] := by
  interval_cases n <;> simp [pad2, minCands, digitVal, digitChar]

theorem sepP_none (l : List Char) : sepP Option.none l = some l := rfl

theorem sepP_cons_self (c : Char) (r : List Char) : sepP (some c) (c :: r) = some r := by
  simp [sepP]

theorem sepP_cons_ne {c x : Char} (h : x ≠ c) (r : List Char) :
    sepP (some c) (x :: r) = Option.none := by
  simp [sepP, h]

theorem digitChar_ne_of_not_digit {k : Nat} (hk : k ≤ 9) {c : Char}
    (hc : c.isDigit = false) : digitChar k ≠ c := by
  intro h
  rw [← h] at hc
  rw [digitChar_isDigit hk] at hc
  exact Bool.true_eq_false.mp hc

theorem firstSome_cons_some {α β : Type} {f : α → Option β} {x : α} {xs : List α} {y : β}
    (hf : f x = some y) : firstSome f (x :: xs) = some y := by
  simp [firstSome, hf]

theorem firstSome_cons_none {α β : Type} {f : α → Option β} {x : α} {xs : List α}
    (hf : f x = Option.none) : firstSome f (x :: xs) = firstSome f xs := by
  simp [firstSome, hf]

theorem dropWhile_cons_false {p : Char → Bool} {c : Char} {l : List Char}
    (h : p c = false) : (c :: l).dropWhile p = c :: l := by
  simp [List.dropWhile_cons, h]

theorem tsepP_render (ts : TSep) {c : Char} {l : List Char} (hc : c.isWhitespace = false)
    (rest : List Char) :
    tsepP ts (tsChar ts :: (c :: l ++ rest)) = some (c :: l ++ rest) := by
  cases ts <;> simp [tsChar, tsepP, dropWhile_cons_false hc]

theorem tsepP_ws_head_fail {c : Char} (hc : c.isWhitespace = false) (l : List Char) :
    tsepP .ws (c :: l) = Option.none := by
  simp [tsepP, hc]

theorem timeMatch_hm_fail {ts : TSep} {l : List Char} (h : tsepP ts l = Option.none) :
    timeMatch (.hm ts) l = Option.none := by
  simp [timeMatch, h]

theorem timeMatch_hms_fail {ts : TSep} {l : List Char} (h : tsepP ts l = Option.none) :
    timeMatch (.hms ts) l = Option.none := by
  simp [timeMatch, h]

theorem pad2_head_not_ws (n : Nat) (l : List Char) :
    ∃ c l2, pad2 n ++ l = c :: l2 ∧ c.isWhitespace = false := by
  refine ⟨digitChar (n / 10 % 10), digitChar (n % 10) :: l, rfl, ?_⟩
  exact digitChar_not_ws (Nat.le_of_lt_succ (Nat.mod_lt _ (by norm_num)))

theorem tsepP_pad2 (ts : TSep) (n : Nat) (l : List Char) :
    tsepP ts (tsChar ts :: (pad2 n ++ l)) = some (pad2 n ++ l) := by
  have hws : (digitChar (n / 10 % 10)).isWhitespace = false :=
    digitChar_not_ws (Nat.le_of_lt_succ (Nat.mod_lt _ (by norm_num)))
  cases ts <;> simp [tsChar, tsepP, pad2, dropWhile_cons_false hws]

theorem timeMatch_hm_ok (ts : TSep) {h mi : Nat} (hh : h ≤ 23) (hmi : mi ≤ 59)
    (rest : List Char) :
    timeMatch (.hm ts) (tsChar ts :: (pad2 h ++ (':' :: (pad2 mi ++ rest)))) = some rest := by
  rw [timeMatch, tsepP_pad2, Option.some_bind, hCands_pad2 hh]
  apply firstSome_cons_some
  simp only [colonP, beq_self_eq_true, if_true, Option.some_bind]
  rw [minCands_pad2 hmi]
  exact firstSome_cons_some rfl

theorem timeMatch_hms_ok (ts : TSep) {h mi sec : Nat} (hh : h ≤ 23) (hmi : mi ≤ 59)
    (hs : sec ≤ 59) (rest : List Char) :
    timeMatch (.hms ts)
      (tsChar ts :: (pad2 h ++ (':' :: (pad2 mi ++ (':' :: (pad2 sec ++ rest))))))
      = some rest := by
  rw [timeMatch, tsepP_pad2, Option.some_bind, hCands_pad2 hh]
  apply firstSome_cons_some
  simp only [colonP, beq_self_eq_true, if_true, Option.some_bind]
  rw [minCands_pad2 hmi]
  apply firstSome_cons_some
  simp only [colonP, beq_self_eq_true, if_true, Option.some_bind]
  rw [minCands_pad2 hs]
  exact firstSome_cons_some rfl

/-- Success of the full regex chain for a separator format: the date fields
are matched from their zero-padded renderings and `tail` is handed to the
time part. -/
theorem fmtMatch_core (c : Char) (t : TimeSpec) {y m d : Nat} (hy : y ≤ 9999)
    (hm1 : 1 ≤ m) (hm2 : m ≤ 12) (hd1 : 1 ≤ d) (hd2 : d ≤ 31) {tail rest : List Char}
    (ht : timeMatch t tail = some rest) :
    fmtMatch ⟨some c, t⟩ (pad4 y ++ (c :: (pad2 m ++ (c :: (pad2 d ++ tail)))))
      = some (y, m, d, rest) := by
  rw [fmtMatch, take4D_pad4 hy, Option.some_bind, sepP_cons_self, Option.some_bind,
    mCands_pad2 hm1 hm2]
  apply firstSome_cons_some
  simp only [sepP_cons_self, Option.some_bind]
  rw [dCands_pad2 hd1 hd2]
  apply firstSome_cons_some
  simp only [ht]
  rfl

/-- Success of the compact format chain (no separators). -/
theorem fmtMatch_compact {y m d : Nat} (hy : y ≤ 9999) (hm1 : 1 ≤ m) (hm2 : m ≤ 12)
    (hd1 : 1 ≤ d) (hd2 : d ≤ 31) (tail : List Char) :
    fmtMatch compactFmt (pad4 y ++ (pad2 m ++ (pad2 d ++ tail))) = some (y, m, d, tail) := by
  rw [compactFmt, fmtMatch, take4D_pad4 hy, Option.some_bind, sepP_none, Option.some_bind,
    mCands_pad2 hm1 hm2]
  apply firstSome_cons_some
  simp only [sepP_none, Option.some_bind]
  rw [dCands_pad2 hd1 hd2]
  apply firstSome_cons_some
  simp only [timeMatch]
  rfl

/-- A separator format cannot match when the character after the year is not
the separator. -/
theorem fmtMatch_sep_mismatch (c : Char) (t : TimeSpec) {x : Char} (hx : x ≠ c)
    {y : Nat} (hy : y ≤ 9999) (r : List Char) :
    fmtMatch ⟨some c, t⟩ (pad4 y ++ (x :: r)) = Option.none := by
  rw [fmtMatch, take4D_pad4 hy, Option.some_bind, sepP_cons_ne hx, Option.none_bind]

/-- A separator format fails outright when the time part rejects both the
two-digit and the backtracked one-digit day reading (and, for months above
nine, the backtracked one-digit month reading runs into a digit where the
separator is required). -/
theorem fmtMatch_time_fail (c : Char) (hc : c.isDigit = false) (t : TimeSpec)
    {y m d : Nat} (hy : y ≤ 9999) (hm1 : 1 ≤ m) (hm2 : m ≤ 12) (hd1 : 1 ≤ d) (hd2 : d ≤ 31)
    {tail : List Char} (ht1 : timeMatch t tail = Option.none)
    (ht2 : timeMatch t (digitChar (d % 10) :: tail) = Option.none) :
    fmtMatch ⟨some c, t⟩ (pad4 y ++ (c :: (pad2 m ++ (c :: (pad2 d ++ tail)))))
      = Option.none := by
  rw [fmtMatch, take4D_pad4 hy, Option.some_bind, sepP_cons_self, Option.some_bind,
    mCands_pad2 hm1 hm2]
  have hdchain : ((sepP (some c) (c :: (pad2 d ++ tail))).bind fun r4 =>
      firstSome (fun dc => (timeMatch t dc.2).map fun r6 => (y, m, dc.1, r6)) (dCands r4))
      = Option.none := by
    rw [sepP_cons_self, Option.some_bind, dCands_pad2 hd1 hd2,
      firstSome_cons_none (by simp [ht1])]
    by_cases h9 : d ≤ 9
    · rw [if_pos h9]; rfl
    · rw [if_neg h9, firstSome_cons_none (by simp [ht2])]; rfl
  rw [firstSome_cons_none (by simpa using hdchain)]
  by_cases h9m : m ≤ 9
  · rw [if_pos h9m]; rfl
  · rw [if_neg h9m,
      firstSome_cons_none
        (by simp [sepP_cons_ne (digitChar_ne_of_not_digit (show m - 10 ≤ 9 by omega) hc)])]
    rfl

theorem strptime_ok {f : Fmt} {s : List Char} {y m d : Nat}
    (h : fmtMatch f s = some (y, m, d, [])) (hv : pyDateOk y m d = true) :
    strptime f s = .ok y m d := by
  simp [strptime, h, hv]

theorem strptime_leftover {f : Fmt} {s : List Char} {y m d : Nat} {c : Char} {r : List Char}
    (h : fmtMatch f s = some (y, m, d, c :: r)) : strptime f s = .leftover (c :: r) := by
  simp [strptime, h]

theorem strptime_noMatch {f : Fmt} {s : List Char} (h : fmtMatch f s = Option.none) :
    strptime f s = .noMatch := by
  simp [strptime, h]

theorem tryFmts_cons_ok {f : Fmt} {fs : List Fmt} {s : List Char} {y m d : Nat}
    (h : strptime f s = .ok y m d) : tryFmts (f :: fs) s = some (y, m, d) := by
  simp [tryFmts, h]

theorem tryFmts_cons_noMatch {f : Fmt} {fs : List Fmt} {s : List Char}
    (h : strptime f s = .noMatch) : tryFmts (f :: fs) s = tryFmts fs s := by
  simp [tryFmts, h]

theorem tryFmts_cons_leftover {f : Fmt} {fs : List Fmt} {s : List Char} {r : List Char}
    (h : strptime f s = .leftover r) : tryFmts (f :: fs) s = tryFmts fs s := by
  simp [tryFmts, h]

theorem dropWhile_eq_self_of_all {p : Char → Bool} {l : List Char}
    (h : ∀ c ∈ l, p c = false) : l.dropWhile p = l := by
  cases l with
  | nil => rfl
  | cons c t => exact dropWhile_cons_false (h c (by simp))

theorem stripList_eq_self_of_all {l : List Char}
    (h : ∀ c ∈ l, c.isWhitespace = false) : stripList l = l := by
  unfold stripList
  rw [dropWhile_eq_self_of_all h, dropWhile_eq_self_of_all (by simpa using h),
    List.reverse_reverse]

theorem stripList_head_last {c e : Char} {l : List Char}
    (hh : (c :: l).head? = some c) (hc : c.isWhitespace = false)
    (hl : (c :: l).getLast? = some e) (he : e.isWhitespace = false) :
    stripList (c :: l) = c :: l := by
  unfold stripList
  rw [dropWhile_cons_false hc]
  have hrev : (c :: l).reverse.head? = some e := by
    rw [List.head?_reverse]; exact hl
  cases hr : (c :: l).reverse with
  | nil => simp at hr
  | cons r t =>
    rw [hr] at hrev
    simp only [List.head?_cons, Option.some.injEq] at hrev
    subst hrev
    rw [dropWhile_cons_false he, ← hr, List.reverse_reverse]

theorem d12Cands_natC {n : Nat} (h1 : 1 ≤ n) (h2 : n ≤ 31) {c : Char}
    (hc : c.isDigit = false) (r : List Char) :
    d12Cands (natC n ++ (c :: r))
      = (n, c :: r)
        :: (if n ≤ 9 then [] else [(n / 10, digitChar (n % 10) :: (c :: r))]) := by
  interval_cases n <;> simp [natC, pad2, d12Cands, digitVal, digitChar, hc]

theorem wsDrop_cons_not {c : Char} (hc : c.isWhitespace = false) (l : List Char) :
    wsDrop (c :: l) = c :: l := by
  simp [wsDrop, dropWhile_cons_false hc]

theorem wsDrop_space (l : List Char) : wsDrop (' ' :: l) = wsDrop l := by
  simp [wsDrop, List.dropWhile_cons]

theorem charP_self (c : Char) (r : List Char) : charP c (c :: r) = some r := by
  simp [charP]

theorem digit_not_ws {c : Char} (h : c.isDigit = true) : c.isWhitespace = false := by
  simp [Char.isDigit] at h
  obtain ⟨h1, h2⟩ := h
  have ha : 48 ≤ c.toNat := h1
  have hb : c.toNat ≤ 57 := h2
  by_contra hw
  rw [Bool.not_eq_false] at hw
  simp [Char.isWhitespace] at hw
  rcases hw with ((h3 | h3) | h3) | h3 <;> subst h3 <;> revert ha hb <;> decide

theorem daysInMonth_le (y m : Nat) : daysInMonth y m ≤ 31 := by
  unfold daysInMonth
  split
  · split <;> omega
  · split <;> omega

theorem pyDateOk_bounds {y m d : Nat} (h : pyDateOk y m d = true) :
    1 ≤ y ∧ y ≤ 9999 ∧ 1 ≤ m ∧ m ≤ 12 ∧ 1 ≤ d ∧ d ≤ 31 := by
  simp [pyDateOk] at h
  have := daysInMonth_le y m
  omega

theorem pyIsDigitStr_false_of_mem {c : Char} {l : List Char} (hm : c ∈ l)
    (hc : c.isDigit = false) : pyIsDigitStr l = false := by
  have : l.all Char.isDigit = false := by
    rw [List.all_eq_false]
    exact ⟨c, hm, by simp [hc]⟩
  simp [pyIsDigitStr, this]

theorem wsDrop_natC (n : Nat) (l : List Char) : wsDrop (natC n ++ l) = natC n ++ l := by
  by_cases h : n ≤ 9
  · simp only [natC, if_pos h, List.cons_append, List.nil_append]
    exact wsDrop_cons_not (digitChar_not_ws h) _
  · simp only [natC, if_neg h, pad2, List.cons_append, List.nil_append]
    exact wsDrop_cons_not
      (digitChar_not_ws (Nat.le_of_lt_succ (Nat.mod_lt _ (by norm_num)))) _

theorem koreanAt_render {y m d : Nat} (hy : y ≤ 9999) (hm1 : 1 ≤ m) (hm2 : m ≤ 12)
    (hd1 : 1 ≤ d) (hd2 : d ≤ 31) :
    koreanAt (koreanRender y m d) = some (y, m, d) := by
  rw [koreanRender, koreanAt, take4D_pad4 hy, Option.some_bind,
    wsDrop_cons_not (by decide), charP_self, Option.some_bind, wsDrop_space, wsDrop_natC,
    d12Cands_natC hm1 (show m ≤ 31 by omega) (by decide)]
  apply firstSome_cons_some
  rw [wsDrop_cons_not (by decide), charP_self, Option.some_bind, wsDrop_space, wsDrop_natC,
    d12Cands_natC hd1 hd2 (by decide)]
  apply firstSome_cons_some
  rw [wsDrop_cons_not (by decide), charP_self]
  rfl

theorem koreanSearch_head {c : Char} {t : List Char} {v : Nat × Nat × Nat}
    (h : koreanAt (c :: t) = some v) : koreanSearch (c :: t) = some v := by
  simp [koreanSearch, h]

theorem stripList_eq_self {l : List Char} {c e : Char}
    (hh : l.head? = some c) (hc : c.isWhitespace = false)
    (hl : l.getLast? = some e) (he : e.isWhitespace = false) :
    stripList l = l := by
  cases l with
  | nil => simp at hh
  | cons a t =>
    simp only [List.head?_cons, Option.some.injEq] at hh
    subst hh
    exact stripList_head_last rfl hc hl he

theorem mod10_le (n : Nat) : n % 10 ≤ 9 := Nat.le_of_lt_succ (Nat.mod_lt _ (by norm_num))

theorem digitChar_mod_isDigit (n : Nat) : (digitChar (n % 10)).isDigit = true :=
  digitChar_isDigit (mod10_le n)

theorem digitChar_mod_not_ws (n : Nat) : (digitChar (n % 10)).isWhitespace = false :=
  digitChar_not_ws (mod10_le n)

theorem pad8_all_digits (y m d : Nat) :
    pyIsDigitStr (pad4 y ++ (pad2 m ++ pad2 d)) = true := by
  simp [pyIsDigitStr, pad4, pad2, digitChar_mod_isDigit]

/-- A separator date-only format succeeds on a matching-separator rendering,
handing the tail to the (empty) time part. -/
theorem strptime_dateOnly_on (c : Char) {y m d : Nat} (hy2 : y ≤ 9999)
    (hm1 : 1 ≤ m) (hm2 : m ≤ 12) (hd1 : 1 ≤ d) (hd2 : d ≤ 31) (tail : List Char) :
    fmtMatch ⟨some c, .noTime⟩ (dateSepT c y m d tail) = some (y, m, d, tail) :=
  fmtMatch_core c .noTime hy2 hm1 hm2 hd1 hd2 rfl

theorem fmtMatch_dateSepT_mismatch {c1 c2 : Char} (hne : c2 ≠ c1) (t : TimeSpec)
    {y m d : Nat} (hy2 : y ≤ 9999) (tail : List Char) :
    fmtMatch ⟨some c1, t⟩ (dateSepT c2 y m d tail) = Option.none :=
  fmtMatch_sep_mismatch c1 t hne hy2 _

theorem fmtMatch_korean_mismatch (c1 : Char) (hne : '년' ≠ c1) (t : TimeSpec)
    {y m d : Nat} (hy2 : y ≤ 9999) :
    fmtMatch ⟨some c1, t⟩ (koreanRender y m d) = Option.none :=
  fmtMatch_sep_mismatch c1 t hne hy2 _

theorem timeMatch_hm_ws_on_T (h mi : Nat) (rest : List Char) :
    timeMatch (.hm .ws) (hmTail .litT h mi rest) = Option.none := by
  apply timeMatch_hm_fail
  simp [hmTail, tsChar, tsepP]

theorem timeMatch_hms_ws_on_T (h mi : Nat) (rest : List Char) :
    timeMatch (.hms .ws) (hmTail .litT h mi rest) = Option.none := by
  apply timeMatch_hms_fail
  simp [hmTail, tsChar, tsepP]

theorem timeMatch_hm_digit_head (n : Nat) (l : List Char) :
    timeMatch (.hm .ws) (digitChar (n % 10) :: l) = Option.none :=
  timeMatch_hm_fail (tsepP_ws_head_fail (digitChar_mod_not_ws n) l)

theorem timeMatch_hms_digit_head (n : Nat) (l : List Char) :
    timeMatch (.hms .ws) (digitChar (n % 10) :: l) = Option.none :=
  timeMatch_hms_fail (tsepP_ws_head_fail (digitChar_mod_not_ws n) l)

theorem koreanSearch_of_koreanAt {l : List Char} {v : Nat × Nat × Nat}
    (hne : l ≠ []) (h : koreanAt l = some v) : koreanSearch l = some v := by
  cases l with
  | nil => exact absurd rfl hne
  | cons c t => simp [koreanSearch, h]

theorem fmtMatch_dateSepT (c : Char) (t : TimeSpec) {y m d : Nat} (hy2 : y ≤ 9999)
    (hm1 : 1 ≤ m) (hm2 : m ≤ 12) (hd1 : 1 ≤ d) (hd2 : d ≤ 31) {tail rest : List Char}
    (ht : timeMatch t tail = some rest) :
    fmtMatch ⟨some c, t⟩ (dateSepT c y m d tail) = some (y, m, d, rest) :=
  fmtMatch_core c t hy2 hm1 hm2 hd1 hd2 ht

theorem fmtMatch_dateSepT_timeFail (c : Char) (hc : c.isDigit = false) (t : TimeSpec)
    {y m d : Nat} (hy2 : y ≤ 9999) (hm1 : 1 ≤ m) (hm2 : m ≤ 12) (hd1 : 1 ≤ d) (hd2 : d ≤ 31)
    {tail : List Char} (ht1 : timeMatch t tail = Option.none)
    (ht2 : timeMatch t (digitChar (d % 10) :: tail) = Option.none) :
    fmtMatch ⟨some c, t⟩ (dateSepT c y m d tail) = Option.none :=
  fmtMatch_time_fail c hc t hy2 hm1 hm2 hd1 hd2 ht1 ht2

theorem timeMatch_hmTail_ok (ts : TSep) {h mi : Nat} (hh : h ≤ 23) (hmi : mi ≤ 59)
    (rest : List Char) : timeMatch (.hm ts) (hmTail ts h mi rest) = some rest :=
  timeMatch_hm_ok ts hh hmi rest

theorem timeMatch_hmsTail_ok (ts : TSep) {h mi sec : Nat} (hh : h ≤ 23) (hmi : mi ≤ 59)
    (hs : sec ≤ 59) (rest : List Char) :
    timeMatch (.hms ts) (hmsTail ts h mi sec rest) = some rest :=
  timeMatch_hms_ok ts hh hmi hs rest

theorem timeMatch_hm_on_hms (ts : TSep) {h mi : Nat} (hh : h ≤ 23) (hmi : mi ≤ 59)
    (sec : Nat) (rest : List Char) :
    timeMatch (.hm ts) (hmsTail ts h mi sec rest) = some (':' :: (pad2 sec ++ rest)) :=
  timeMatch_hm_ok ts hh hmi _

/-- The date-only format loop on a separated rendering: the format with the
matching separator parses the date; a nonempty tail makes its result an
`unconverted data remains` error, which the loop skips, and the other two
formats mismatch at the separator. -/
theorem tryFmts_dateOnly_sep (k : SepKind) {y m d : Nat} (hv : pyDateOk y m d = true)
    (hy2 : y ≤ 9999) (hm1 : 1 ≤ m) (hm2 : m ≤ 12) (hd1 : 1 ≤ d) (hd2 : d ≤ 31)
    (tail : List Char) :
    tryFmts dateOnlyFmts (dateSepT (sepChar k) y m d tail)
      = if tail.isEmpty then some (y, m, d) else Option.none := by
  have hfm : fmtMatch ⟨some (sepChar k), .noTime⟩ (dateSepT (sepChar k) y m d tail)
      = some (y, m, d, tail) := fmtMatch_dateSepT _ _ hy2 hm1 hm2 hd1 hd2 rfl
  have hstep : ∀ fs, tryFmts (⟨some (sepChar k), .noTime⟩ :: fs)
        (dateSepT (sepChar k) y m d tail)
      = if tail.isEmpty then some (y, m, d) else tryFmts fs (dateSepT (sepChar k) y m d tail) := by
    intro fs
    cases tail with
    | nil => simp [tryFmts_cons_ok (strptime_ok hfm hv)]
    | cons c' r' => simp [tryFmts_cons_leftover (strptime_leftover hfm)]
  cases k
  · simp only [show sepChar .dash = '-' from rfl] at hstep hfm ⊢
    simp only [dateOnlyFmts]
    rw [hstep,
      tryFmts_cons_noMatch (strptime_noMatch (fmtMatch_dateSepT_mismatch (by decide) _ hy2 _)),
      tryFmts_cons_noMatch (strptime_noMatch (fmtMatch_dateSepT_mismatch (by decide) _ hy2 _))]
    cases tail <;> simp [tryFmts]
  · simp only [show sepChar .slash = '/' from rfl] at hstep hfm ⊢
    simp only [dateOnlyFmts]
    rw [tryFmts_cons_noMatch (strptime_noMatch (fmtMatch_dateSepT_mismatch (by decide) _ hy2 _)),
      hstep,
      tryFmts_cons_noMatch (strptime_noMatch (fmtMatch_dateSepT_mismatch (by decide) _ hy2 _))]
    cases tail <;> simp [tryFmts]
  · simp only [show sepChar .dot = '.' from rfl] at hstep hfm ⊢
    simp only [dateOnlyFmts]
    rw [tryFmts_cons_noMatch (strptime_noMatch (fmtMatch_dateSepT_mismatch (by decide) _ hy2 _)),
      tryFmts_cons_noMatch (strptime_noMatch (fmtMatch_dateSepT_mismatch (by decide) _ hy2 _)),
      hstep]
    cases tail <;> simp [tryFmts]

theorem hmTail_isEmpty (ts : TSep) (h mi : Nat) (rest : List Char) :
    (hmTail ts h mi rest).isEmpty = false := by
  simp [hmTail]

theorem hmsTail_isEmpty (ts : TSep) (h mi sec : Nat) (rest : List Char) :
    (hmsTail ts h mi sec rest).isEmpty = false := by
  simp [hmsTail, hmTail]

/-- C4: every accepted input representation of one calendar date — the
compact 8-digit form, the dash/slash/dot separator forms, the same forms
with a trailing HH:MM or HH:MM:SS time (space-separated, or T-separated in
the dash form), and the Korean long form — normalizes to the identical
canonical 8-digit YYYYMMDD string. -/
theorem claim_C4 (y m d h mi sec : Nat) (hv : pyDateOk y m d = true)
    (hh : h ≤ 23) (hmi : mi ≤ 59) (hs : sec ≤ 59) (rep : DateRep) :
    toYyyymmdd (String.mk (renderRep y m d h mi sec rep)) = .ok (fmtYmd y m d) := by
  obtain ⟨hy1, hy2, hm1, hm2, hd1, hd2⟩ := pyDateOk_bounds hv
  cases rep with
  | compact =>
    simp only [renderRep]
    show normCore (String.mk (pad4 y ++ (pad2 m ++ pad2 d)))
      (stripList (pad4 y ++ (pad2 m ++ pad2 d))) = _
    have hstrip : stripList (pad4 y ++ (pad2 m ++ pad2 d)) = pad4 y ++ (pad2 m ++ pad2 d) :=
      stripList_eq_self (c := digitChar (y / 1000 % 10)) (e := digitChar (d % 10))
        (by simp [pad4]) (digitChar_mod_not_ws _)
        (by simp [pad4, pad2, List.getLast?_append]) (digitChar_mod_not_ws _)
    have hne : (pad4 y ++ (pad2 m ++ pad2 d)).isEmpty = false := by simp [pad4]
    have hg1 : pyIsDigitStr (pad4 y ++ (pad2 m ++ pad2 d)) = true := pad8_all_digits y m d
    have hg2 : ((pad4 y ++ (pad2 m ++ pad2 d)).length == 8) = true := by simp [pad4, pad2]
    have hfm := fmtMatch_compact hy2 hm1 hm2 hd1 hd2 []
    rw [List.append_nil] at hfm
    have hsp := strptime_ok hfm hv
    rw [hstrip]
    simp only [normCore, hne, hg1, hg2, Bool.and_self, Bool.false_eq_true, if_false,
      if_true, hsp, fmtYmd, List.append_assoc]
  | korean =>
    simp only [renderRep]
    show normCore (String.mk (koreanRender y m d)) (stripList (koreanRender y m d)) = _
    have hstrip : stripList (koreanRender y m d) = koreanRender y m d :=
      stripList_eq_self (c := digitChar (y / 1000 % 10)) (e := '일')
        (by simp [koreanRender, pad4]) (digitChar_mod_not_ws _)
        (by
          rw [show koreanRender y m d
              = (pad4 y ++ '년' :: ' ' :: natC m ++ '월' :: ' ' :: natC d) ++ ['일'] by
            simp [koreanRender]]
          exact List.getLast?_concat _) (by decide)
    have hne : (koreanRender y m d).isEmpty = false := by simp [koreanRender, pad4]
    have hdig : pyIsDigitStr (koreanRender y m d) = false :=
      pyIsDigitStr_false_of_mem (show '년' ∈ koreanRender y m d by simp [koreanRender])
        (by decide)
    have hdo : tryFmts dateOnlyFmts (koreanRender y m d) = Option.none := by
      simp only [dateOnlyFmts]
      rw [tryFmts_cons_noMatch (strptime_noMatch (fmtMatch_korean_mismatch _ (by decide) _ hy2)),
        tryFmts_cons_noMatch (strptime_noMatch (fmtMatch_korean_mismatch _ (by decide) _ hy2)),
        tryFmts_cons_noMatch (strptime_noMatch (fmtMatch_korean_mismatch _ (by decide) _ hy2))]
      rfl
    have htf : tryFmts timeFmts (koreanRender y m d) = Option.none := by
      simp only [timeFmts]
      rw [tryFmts_cons_noMatch (strptime_noMatch (fmtMatch_korean_mismatch _ (by decide) _ hy2)),
        tryFmts_cons_noMatch (strptime_noMatch (fmtMatch_korean_mismatch _ (by decide) _ hy2)),
        tryFmts_cons_noMatch (strptime_noMatch (fmtMatch_korean_mismatch _ (by decide) _ hy2)),
        tryFmts_cons_noMatch (strptime_noMatch (fmtMatch_korean_mismatch _ (by decide) _ hy2)),
        tryFmts_cons_noMatch (strptime_noMatch (fmtMatch_korean_mismatch _ (by decide) _ hy2)),
        tryFmts_cons_noMatch (strptime_noMatch (fmtMatch_korean_mismatch _ (by decide) _ hy2)),
        tryFmts_cons_noMatch (strptime_noMatch (fmtMatch_korean_mismatch _ (by decide) _ hy2)),
        tryFmts_cons_noMatch (strptime_noMatch (fmtMatch_korean_mismatch _ (by decide) _ hy2))]
      rfl
    have hk : koreanSearch (koreanRender y m d) = some (y, m, d) :=
      koreanSearch_of_koreanAt (by simp [koreanRender, pad4])
        (koreanAt_render hy2 hm1 hm2 hd1 hd2)
    rw [hstrip]
    simp only [normCore, hne, hdig, Bool.false_and, Bool.false_eq_true, if_false,
      hdo, htf, hk, hv, if_true]
  | sepOnly k =>
    simp only [renderRep]
    show normCore (String.mk (dateSepT (sepChar k) y m d []))
      (stripList (dateSepT (sepChar k) y m d [])) = _
    have hstrip : stripList (dateSepT (sepChar k) y m d [])
        = dateSepT (sepChar k) y m d [] :=
      stripList_eq_self (c := digitChar (y / 1000 % 10)) (e := digitChar (d % 10))
        (by simp [dateSepT, pad4]) (digitChar_mod_not_ws _)
        (by simp [dateSepT, pad4, pad2, List.getLast?_append]) (digitChar_mod_not_ws _)
    have hne : (dateSepT (sepChar k) y m d []).isEmpty = false := by simp [dateSepT, pad4]
    have hdig : pyIsDigitStr (dateSepT (sepChar k) y m d []) = false :=
      pyIsDigitStr_false_of_mem (show sepChar k ∈ dateSepT (sepChar k) y m d [] by
        simp [dateSepT]) (by cases k <;> decide)
    have hdo := tryFmts_dateOnly_sep k hv hy2 hm1 hm2 hd1 hd2 []
    simp only [List.isEmpty_nil, if_true] at hdo
    rw [hstrip]
    simp only [normCore, hne, hdig, Bool.false_and, Bool.false_eq_true, if_false, hdo]
  | sepTime k withSec =>
    simp only [renderRep]
    cases withSec with
    | false =>
      simp only [renderRep]
      show normCore (String.mk (dateSepT (sepChar k) y m d (hmTail .ws h mi [])))
        (stripList (dateSepT (sepChar k) y m d (hmTail .ws h mi []))) = _
      have hstrip : stripList (dateSepT (sepChar k) y m d (hmTail .ws h mi []))
          = dateSepT (sepChar k) y m d (hmTail .ws h mi []) :=
        stripList_eq_self (c := digitChar (y / 1000 % 10)) (e := digitChar (mi % 10))
          (by simp [dateSepT, pad4]) (digitChar_mod_not_ws _)
          (by simp [dateSepT, hmTail, tsChar, pad4, pad2, List.getLast?_append])
          (digitChar_mod_not_ws _)
      have hne : (dateSepT (sepChar k) y m d (hmTail .ws h mi [])).isEmpty = false := by
        simp [dateSepT, pad4]
      have hdig : pyIsDigitStr (dateSepT (sepChar k) y m d (hmTail .ws h mi [])) = false :=
        pyIsDigitStr_false_of_mem
          (show sepChar k ∈ dateSepT (sepChar k) y m d (hmTail .ws h mi []) by
            simp [dateSepT]) (by cases k <;> decide)
      have hdo := tryFmts_dateOnly_sep k hv hy2 hm1 hm2 hd1 hd2 (hmTail .ws h mi [])
      simp only [hmTail_isEmpty, Bool.false_eq_true, if_false] at hdo
      have htf : tryFmts timeFmts (dateSepT (sepChar k) y m d (hmTail .ws h mi []))
          = some (y, m, d) := by
        have hhit : ∀ fs, tryFmts (⟨some (sepChar k), .hm .ws⟩ :: fs)
            (dateSepT (sepChar k) y m d (hmTail .ws h mi [])) = some (y, m, d) :=
          fun fs => tryFmts_cons_ok (strptime_ok
            (fmtMatch_dateSepT _ _ hy2 hm1 hm2 hd1 hd2 (timeMatch_hmTail_ok .ws hh hmi []))
            hv)
        cases k
        · simp only [show sepChar .dash = '-' from rfl] at hhit ⊢
          simp only [timeFmts]
          rw [hhit]
        · simp only [show sepChar .slash = '/' from rfl] at hhit ⊢
          simp only [timeFmts]
          rw [tryFmts_cons_noMatch
              (strptime_noMatch (fmtMatch_dateSepT_mismatch (by decide) _ hy2 _)),
            tryFmts_cons_noMatch
              (strptime_noMatch (fmtMatch_dateSepT_mismatch (by decide) _ hy2 _)),
            hhit]
        · simp only [show sepChar .dot = '.' from rfl] at hhit ⊢
          simp only [timeFmts]
          rw [tryFmts_cons_noMatch
              (strptime_noMatch (fmtMatch_dateSepT_mismatch (by decide) _ hy2 _)),
            tryFmts_cons_noMatch
              (strptime_noMatch (fmtMatch_dateSepT_mismatch (by decide) _ hy2 _)),
            tryFmts_cons_noMatch
              (strptime_noMatch (fmtMatch_dateSepT_mismatch (by decide) _ hy2 _)),
            tryFmts_cons_noMatch
              (strptime_noMatch (fmtMatch_dateSepT_mismatch (by decide) _ hy2 _)),
            hhit]
      rw [hstrip]
      simp only [normCore, hne, hdig, Bool.false_and, Bool.false_eq_true, if_false, hdo, htf]
    | true =>
      simp only [renderRep]
      show normCore (String.mk (dateSepT (sepChar k) y m d (hmsTail .ws h mi sec [])))
        (stripList (dateSepT (sepChar k) y m d (hmsTail .ws h mi sec []))) = _
      have hstrip : stripList (dateSepT (sepChar k) y m d (hmsTail .ws h mi sec []))
          = dateSepT (sepChar k) y m d (hmsTail .ws h mi sec []) :=
        stripList_eq_self (c := digitChar (y / 1000 % 10)) (e := digitChar (sec % 10))
          (by simp [dateSepT, pad4]) (digitChar_mod_not_ws _)
          (by simp [dateSepT, hmsTail, hmTail, tsChar, pad4, pad2, List.getLast?_append])
          (digitChar_mod_not_ws _)
      have hne : (dateSepT (sepChar k) y m d (hmsTail .ws h mi sec [])).isEmpty = false := by
        simp [dateSepT, pad4]
      have hdig : pyIsDigitStr (dateSepT (sepChar k) y m d (hmsTail .ws h mi sec [])) = false :=
        pyIsDigitStr_false_of_mem
          (show sepChar k ∈ dateSepT (sepChar k) y m d (hmsTail .ws h mi sec []) by
            simp [dateSepT]) (by cases k <;> decide)
      have hdo := tryFmts_dateOnly_sep k hv hy2 hm1 hm2 hd1 hd2 (hmsTail .ws h mi sec [])
      simp only [hmsTail_isEmpty, Bool.false_eq_true, if_false] at hdo
      have htf : tryFmts timeFmts (dateSepT (sepChar k) y m d (hmsTail .ws h mi sec []))
          = some (y, m, d) := by
        have hskip : ∀ fs, tryFmts (⟨some (sepChar k), .hm .ws⟩ :: fs)
            (dateSepT (sepChar k) y m d (hmsTail .ws h mi sec []))
            = tryFmts fs (dateSepT (sepChar k) y m d (hmsTail .ws h mi sec [])) :=
          fun fs => tryFmts_cons_leftover (strptime_leftover
            (fmtMatch_dateSepT _ _ hy2 hm1 hm2 hd1 hd2 (timeMatch_hm_on_hms .ws hh hmi sec [])))
        have hhit : ∀ fs, tryFmts (⟨some (sepChar k), .hms .ws⟩ :: fs)
            (dateSepT (sepChar k) y m d (hmsTail .ws h mi sec [])) = some (y, m, d) :=
          fun fs => tryFmts_cons_ok (strptime_ok
            (fmtMatch_dateSepT _ _ hy2 hm1 hm2 hd1 hd2
              (timeMatch_hmsTail_ok .ws hh hmi hs [])) hv)
        cases k
        · simp only [show sepChar .dash = '-' from rfl] at hskip hhit ⊢
          simp only [timeFmts]
          rw [hskip, hhit]
        · simp only [show sepChar .slash = '/' from rfl] at hskip hhit ⊢
          simp only [timeFmts]
          rw [tryFmts_cons_noMatch
              (strptime_noMatch (fmtMatch_dateSepT_mismatch (by decide) _ hy2 _)),
            tryFmts_cons_noMatch
              (strptime_noMatch (fmtMatch_dateSepT_mismatch (by decide) _ hy2 _)),
            hskip, hhit]
        · simp only [show sepChar .dot = '.' from rfl] at hskip hhit ⊢
          simp only [timeFmts]
          rw [tryFmts_cons_noMatch
              (strptime_noMatch (fmtMatch_dateSepT_mismatch (by decide) _ hy2 _)),
            tryFmts_cons_noMatch
              (strptime_noMatch (fmtMatch_dateSepT_mismatch (by decide) _ hy2 _)),
            tryFmts_cons_noMatch
              (strptime_noMatch (fmtMatch_dateSepT_mismatch (by decide) _ hy2 _)),
            tryFmts_cons_noMatch
              (strptime_noMatch (fmtMatch_dateSepT_mismatch (by decide) _ hy2 _)),
            hskip, hhit]
      rw [hstrip]
      simp only [normCore, hne, hdig, Bool.false_and, Bool.false_eq_true, if_false, hdo, htf]
  | isoT withSec =>
    simp only [renderRep]
    cases withSec with
    | false =>
      simp only [renderRep]
      show normCore (String.mk (dateSepT '-' y m d (hmTail .litT h mi [])))
        (stripList (dateSepT '-' y m d (hmTail .litT h mi []))) = _
      have hstrip : stripList (dateSepT '-' y m d (hmTail .litT h mi []))
          = dateSepT '-' y m d (hmTail .litT h mi []) :=
        stripList_eq_self (c := digitChar (y / 1000 % 10)) (e := digitChar (mi % 10))
          (by simp [dateSepT, pad4]) (digitChar_mod_not_ws _)
          (by simp [dateSepT, hmTail, tsChar, pad4, pad2, List.getLast?_append])
          (digitChar_mod_not_ws _)
      have hne : (dateSepT '-' y m d (hmTail .litT h mi [])).isEmpty = false := by
        simp [dateSepT, pad4]
      have hdig : pyIsDigitStr (dateSepT '-' y m d (hmTail .litT h mi [])) = false :=
        pyIsDigitStr_false_of_mem
          (show '-' ∈ dateSepT '-' y m d (hmTail .litT h mi []) by simp [dateSepT])
          (by decide)
      have hdo := tryFmts_dateOnly_sep .dash hv hy2 hm1 hm2 hd1 hd2 (hmTail .litT h mi [])
      simp only [show sepChar .dash = '-' from rfl, hmTail_isEmpty, Bool.false_eq_true,
        if_false] at hdo
      have htf : tryFmts timeFmts (dateSepT '-' y m d (hmTail .litT h mi []))
          = some (y, m, d) := by
        simp only [timeFmts]
        rw [tryFmts_cons_noMatch (strptime_noMatch
              (fmtMatch_dateSepT_timeFail '-' (by decide) (.hm .ws) hy2 hm1 hm2 hd1 hd2
                (timeMatch_hm_ws_on_T h mi []) (timeMatch_hm_digit_head d _))),
          tryFmts_cons_noMatch (strptime_noMatch
              (fmtMatch_dateSepT_timeFail '-' (by decide) (.hms .ws) hy2 hm1 hm2 hd1 hd2
                (timeMatch_hms_ws_on_T h mi []) (timeMatch_hms_digit_head d _))),
          tryFmts_cons_noMatch
            (strptime_noMatch (fmtMatch_dateSepT_mismatch (by decide) _ hy2 _)),
          tryFmts_cons_noMatch
            (strptime_noMatch (fmtMatch_dateSepT_mismatch (by decide) _ hy2 _)),
          tryFmts_cons_noMatch
            (strptime_noMatch (fmtMatch_dateSepT_mismatch (by decide) _ hy2 _)),
          tryFmts_cons_noMatch
            (strptime_noMatch (fmtMatch_dateSepT_mismatch (by decide) _ hy2 _)),
          tryFmts_cons_ok (strptime_ok
            (fmtMatch_dateSepT _ _ hy2 hm1 hm2 hd1 hd2 (timeMatch_hmTail_ok .litT hh hmi []))
            hv)]
      rw [hstrip]
      simp only [normCore, hne, hdig, Bool.false_and, Bool.false_eq_true, if_false, hdo, htf]
    | true =>
      simp only [renderRep]
      show normCore (String.mk (dateSepT '-' y m d (hmsTail .litT h mi sec [])))
        (stripList (dateSepT '-' y m d (hmsTail .litT h mi sec []))) = _
      have hstrip : stripList (dateSepT '-' y m d (hmsTail .litT h mi sec []))
          = dateSepT '-' y m d (hmsTail .litT h mi sec []) :=
        stripList_eq_self (c := digitChar (y / 1000 % 10)) (e := digitChar (sec % 10))
          (by simp [dateSepT, pad4]) (digitChar_mod_not_ws _)
          (by simp [dateSepT, hmsTail, hmTail, tsChar, pad4, pad2, List.getLast?_append])
          (digitChar_mod_not_ws _)
      have hne : (dateSepT '-' y m d (hmsTail .litT h mi sec [])).isEmpty = false := by
        simp [dateSepT, pad4]
      have hdig : pyIsDigitStr (dateSepT '-' y m d (hmsTail .litT h mi sec [])) = false :=
        pyIsDigitStr_false_of_mem
          (show '-' ∈ dateSepT '-' y m d (hmsTail .litT h mi sec []) by simp [dateSepT])
          (by decide)
      have hdo := tryFmts_dateOnly_sep .dash hv hy2 hm1 hm2 hd1 hd2 (hmsTail .litT h mi sec [])
      simp only [show sepChar .dash = '-' from rfl, hmsTail_isEmpty, Bool.false_eq_true,
        if_false] at hdo
      have htf : tryFmts timeFmts (dateSepT '-' y m d (hmsTail .litT h mi sec []))
          = some (y, m, d) := by
        simp only [timeFmts]
        rw [tryFmts_cons_noMatch (strptime_noMatch
              (fmtMatch_dateSepT_timeFail '-' (by decide) (.hm .ws) hy2 hm1 hm2 hd1 hd2
                (show timeMatch (.hm .ws) (hmsTail .litT h mi sec []) = Option.none from
                  timeMatch_hm_ws_on_T h mi _)
                (show timeMatch (.hm .ws) (digitChar (d % 10) :: hmsTail .litT h mi sec [])
                    = Option.none from timeMatch_hm_digit_head d _))),
          tryFmts_cons_noMatch (strptime_noMatch
              (fmtMatch_dateSepT_timeFail '-' (by decide) (.hms .ws) hy2 hm1 hm2 hd1 hd2
                (show timeMatch (.hms .ws) (hmsTail .litT h mi sec []) = Option.none from
                  timeMatch_hms_ws_on_T h mi _)
                (show timeMatch (.hms .ws) (digitChar (d % 10) :: hmsTail .litT h mi sec [])
                    = Option.none from timeMatch_hms_digit_head d _))),
          tryFmts_cons_noMatch
            (strptime_noMatch (fmtMatch_dateSepT_mismatch (by decide) _ hy2 _)),
          tryFmts_cons_noMatch
            (strptime_noMatch (fmtMatch_dateSepT_mismatch (by decide) _ hy2 _)),
          tryFmts_cons_noMatch
            (strptime_noMatch (fmtMatch_dateSepT_mismatch (by decide) _ hy2 _)),
          tryFmts_cons_noMatch
            (strptime_noMatch (fmtMatch_dateSepT_mismatch (by decide) _ hy2 _)),
          tryFmts_cons_leftover (strptime_leftover
            (fmtMatch_dateSepT _ _ hy2 hm1 hm2 hd1 hd2
              (timeMatch_hm_on_hms .litT hh hmi sec []))),
          tryFmts_cons_ok (strptime_ok
            (fmtMatch_dateSepT _ _ hy2 hm1 hm2 hd1 hd2
              (timeMatch_hmsTail_ok .litT hh hmi hs [])) hv)]
      rw [hstrip]
      simp only [normCore, hne, hdig, Bool.false_and, Bool.false_eq_true, if_false, hdo, htf]

theorem claim_C4_witness :
    toYyyymmdd (String.mk (renderRep 2025 11 6 9 30 15 (DateRep.sepTime .slash false)))
        = .ok (fmtYmd 2025 11 6)
    ∧ toYyyymmdd (String.mk (renderRep 2025 11 6 9 30 15 DateRep.korean))
        = .ok (fmtYmd 2025 11 6) :=
  ⟨claim_C4 2025 11 6 9 30 15 (by decide) (by decide) (by decide) (by decide)
      (DateRep.sepTime .slash false),
   claim_C4 2025 11 6 9 30 15 (by decide) (by decide) (by decide) (by decide)
      DateRep.korean⟩

theorem pad4_val4 {a b c d : Char} (ha : a.isDigit = true) (hb : b.isDigit = true)
    (hc : c.isDigit = true) (hd : d.isDigit = true) :
    pad4 (val4 a b c d) = [a, b, c, d] := by
  have va := digitVal_lt_ten ha
  have vb := digitVal_lt_ten hb
  have vc := digitVal_lt_ten hc
  have vd := digitVal_lt_ten hd
  have h1 : val4 a b c d / 1000 % 10 = digitVal a := by simp only [val4]; omega
  have h2 : val4 a b c d / 100 % 10 = digitVal b := by simp only [val4]; omega
  have h3 : val4 a b c d / 10 % 10 = digitVal c := by simp only [val4]; omega
  have h4 : val4 a b c d % 10 = digitVal d := by simp only [val4]; omega
  simp only [pad4, h1, h2, h3, h4, digitChar_digitVal ha, digitChar_digitVal hb,
    digitChar_digitVal hc, digitChar_digitVal hd]

theorem pad2_val2 {a b : Char} (ha : a.isDigit = true) (hb : b.isDigit = true) :
    pad2 (val2 a b) = [a, b] := by
  have va := digitVal_lt_ten ha
  have vb := digitVal_lt_ten hb
  have h1 : val2 a b / 10 % 10 = digitVal a := by simp only [val2]; omega
  have h2 : val2 a b % 10 = digitVal b := by simp only [val2]; omega
  simp only [pad2, h1, h2, digitChar_digitVal ha, digitChar_digitVal hb]

/-- C6: for every 8-digit string that is a valid calendar date, the
normalizer returns the string unchanged (the fast path of `_to_yyyymmdd`). -/
theorem claim_C6 (s : String) (hv : compactValidDate s = true) : toYyyymmdd s = .ok s := by
  rw [compactValidDate] at hv
  split at hv
  next a b c d e f g i heq =>
    simp only [List.all_cons, List.all_nil, Bool.and_true, Bool.and_eq_true] at hv
    obtain ⟨⟨ha, hb, hc, hd, he, hf, hg, hi⟩, hok⟩ := hv
    obtain ⟨hy1, hy2, hm1, hm2, hd1, hd2⟩ := pyDateOk_bounds hok
    have hpad : s.toList = pad4 (val4 a b c d) ++ (pad2 (val2 e f) ++ pad2 (val2 g i)) := by
      rw [heq, pad4_val4 ha hb hc hd, pad2_val2 he hf, pad2_val2 hg hi]
      rfl
    have hstrip : stripList s.toList = s.toList := by
      apply stripList_eq_self_of_all
      intro x hx
      rw [heq] at hx
      simp only [List.mem_cons, List.not_mem_nil, or_false] at hx
      rcases hx with rfl | rfl | rfl | rfl | rfl | rfl | rfl | rfl
      · exact digit_not_ws ha
      · exact digit_not_ws hb
      · exact digit_not_ws hc
      · exact digit_not_ws hd
      · exact digit_not_ws he
      · exact digit_not_ws hf
      · exact digit_not_ws hg
      · exact digit_not_ws hi
    have hne : (s.toList).isEmpty = false := by rw [heq]; rfl
    have hg1 : pyIsDigitStr s.toList = true := by
      rw [hpad]; exact pad8_all_digits _ _ _
    have hg2 : (s.toList.length == 8) = true := by rw [heq]; rfl
    have hfm := fmtMatch_compact hy2 hm1 hm2 hd1 hd2 []
    rw [List.append_nil] at hfm
    have hsp : strptime compactFmt s.toList = .ok (val4 a b c d) (val2 e f) (val2 g i) := by
      rw [hpad]; exact strptime_ok hfm hok
    have hmk : String.mk s.toList = s := by
      rcases s with ⟨data⟩
      rfl
    show normCore s (stripList s.toList) = .ok s
    rw [hstrip]
    simp only [normCore, hne, hg1, hg2, Bool.and_self, Bool.false_eq_true, if_false,
      if_true, hsp, hmk]
  next =>
    simp at hv

theorem claim_C6_witness : toYyyymmdd "20240229" = .ok "20240229" :=
  claim_C6 "20240229" (by decide)

theorem begseg_refl (tok : List Char) : begseg tok tok = true := by
  induction tok with
  | nil => rfl
  | cons c t ih => simp [begseg, ih]

theorem begseg_self_append (tok r : List Char) : begseg tok (tok ++ r) = true := by
  induction tok with
  | nil => rfl
  | cons c t ih => simp [begseg, ih]

theorem containsSeg_append_self (tok l1 : List Char) : containsSeg tok (l1 ++ tok) = true := by
  induction l1 with
  | nil =>
    cases tok with
    | nil => rfl
    | cons c t => simp [containsSeg, begseg_refl]
  | cons c l ih =>
    show containsSeg tok (c :: (l ++ tok)) = true
    simp [containsSeg, ih]

/-- C5, as the code behaves (amended): an input that matches no rule at all
and has fewer than eight digit characters after stripping reaches the final
fallback raise, whose ValueError message interpolates the original input
string.  (For 8-digit non-calendrical inputs the ValueError instead comes
from the fast-path `strptime`/`datetime` call, whose message does not embed
the whole input — see the counterexample.) -/
theorem claim_C5 (s : String)
    (h0 : (stripList s.toList).isEmpty = false)
    (h1 : (pyIsDigitStr (stripList s.toList) && (stripList s.toList).length == 8) = false)
    (h2 : tryFmts dateOnlyFmts (stripList s.toList) = Option.none)
    (h3 : tryFmts timeFmts (stripList s.toList) = Option.none)
    (h4 : koreanSearch (stripList s.toList) = Option.none)
    (h5 : ((stripList s.toList).filter Char.isDigit).length < 8) :
    toYyyymmdd s = .error (.unsupported s)
    ∧ strContains (errMessage (.unsupported s)) s = true := by
  constructor
  · show normCore s (stripList s.toList) = _
    simp only [normCore, h0, h1, h2, h3, h4, Bool.false_eq_true, if_false]
    rw [if_neg (by omega)]
  · show containsSeg s.toList (errMessage (.unsupported s)).toList = true
    have hsplit : (errMessage (.unsupported s)).toList
        = ("지원하지 않는 날짜 형식입니다: ").toList ++ s.toList := by
      simp [errMessage]
    rw [hsplit]
    exact containsSeg_append_self _ _

theorem claim_C5_witness :
    toYyyymmdd "hello" = .error (.unsupported "hello")
    ∧ strContains (errMessage (.unsupported "hello")) "hello" = true :=
  claim_C5 "hello" (by decide) (by decide) (by decide) (by decide) (by decide) (by decide)

/-- C5 counterexample: on the non-calendrical 8-digit input 20251332 the
ValueError comes from the fast-path strptime call — an `unconverted data
remains: 32` error whose message does not embed the original input — so the
diagnostic does not carry the input string as the claim asserts. -/
theorem claim_C5_counterexample :
    toYyyymmdd "20251332" = .error (.compactLeftover "32")
    ∧ strContains (errMessage (.compactLeftover "32")) "20251332" = false :=
  ⟨rfl, by decide⟩

/-- C7: `get_school_timetable` maps each caller grade `g` through
`max 0 (min 5 (g - 1))`, i.e. it clamps `g - 1` into `[0, 5]` instead of
rejecting out-of-range grades; caller grade 0 maps to index 0 and caller
grade 7 maps to index 5. -/
theorem claim_C7 :
    (∀ gs : List Int, target_grade gs
        = gs.map fun g => if g ≤ 0 then 0 else if 6 ≤ g then 5 else g - 1)
    ∧ target_grade [0] = [0] ∧ target_grade [7] = [5]
    ∧ ∀ gs : List Int, ∀ i ∈ target_grade gs, 0 ≤ i ∧ i ≤ 5 := by
  refine ⟨fun gs => ?_, by decide, by decide, fun gs i hi => ?_⟩
  · unfold target_grade
    apply List.map_congr_left
    intro g _
    simp only [Int.max_def, Int.min_def]
    split_ifs <;> omega
  · unfold target_grade at hi
    simp only [List.mem_map] at hi
    obtain ⟨g, _, rfl⟩ := hi
    constructor
    · exact le_max_left 0 _
    · simp only [Int.max_def, Int.min_def]
      split_ifs <;> omega

theorem containsSeg_cons_not_begseg {t0 : Char} {tr : List Char} {c : Char} {cs : List Char}
    (hne : (t0 == c) = false) :
    containsSeg (t0 :: tr) (c :: cs) = containsSeg (t0 :: tr) cs := by
  simp [containsSeg, begseg, hne]

theorem containsSeg_dropWhile {t0 : Char} {tr : List Char}
    (h0 : t0.isWhitespace = false) (l : List Char) :
    containsSeg (t0 :: tr) (l.dropWhile Char.isWhitespace) = containsSeg (t0 :: tr) l := by
  induction l with
  | nil => rfl
  | cons c cs ih =>
    by_cases hw : c.isWhitespace = true
    · rw [List.dropWhile_cons, if_pos hw, ih,
        containsSeg_cons_not_begseg (by
          simp only [beq_eq_false_iff_ne]
          intro he
          rw [he] at h0
          rw [hw] at h0
          exact Bool.true_eq_false.mp h0)]
    · rw [dropWhile_cons_false (Bool.not_eq_true _ |>.mp hw)]

theorem begseg_iff_exists {tok l : List Char} :
    begseg tok l = true ↔ ∃ r, l = tok ++ r := by
  induction tok generalizing l with
  | nil => simp [begseg]
  | cons a as ih =>
    cases l with
    | nil => simp [begseg]
    | cons b bs =>
      simp only [begseg, Bool.and_eq_true, beq_iff_eq, ih, List.cons_append, List.cons.injEq]
      constructor
      · rintro ⟨rfl, r, rfl⟩
        exact ⟨r, rfl, rfl⟩
      · rintro ⟨r, rfl, rfl⟩
        exact ⟨rfl, r, rfl⟩

theorem containsSeg_iff_exists {tok l : List Char} :
    containsSeg tok l = true ↔ ∃ l1 l2, l = l1 ++ tok ++ l2 := by
  induction l with
  | nil =>
    simp only [containsSeg, List.isEmpty_iff]
    constructor
    · rintro rfl
      exact ⟨[], [], rfl⟩
    · rintro ⟨l1, l2, h⟩
      rcases List.append_eq_nil.mp (List.append_eq_nil.mp h.symm).1 with ⟨_, h2⟩
      exact h2
  | cons c cs ih =>
    simp only [containsSeg, Bool.or_eq_true, begseg_iff_exists, ih]
    constructor
    · rintro (⟨r, hr⟩ | ⟨l1, l2, rfl⟩)
      · exact ⟨[], r, by simpa using hr⟩
      · exact ⟨c :: l1, l2, by simp⟩
    · rintro ⟨l1, l2, he⟩
      cases l1 with
      | nil => exact Or.inl ⟨l2, by simpa using he⟩
      | cons x xs =>
        simp only [List.cons_append, List.cons.injEq] at he
        exact Or.inr ⟨xs, l2, he.2⟩

theorem containsSeg_reverse (tok l : List Char) :
    containsSeg tok.reverse l.reverse = containsSeg tok l := by
  by_cases h : containsSeg tok l = true
  · obtain ⟨l1, l2, rfl⟩ := containsSeg_iff_exists.mp h
    rw [h]
    apply containsSeg_iff_exists.mpr
    exact ⟨l2.reverse, l1.reverse, by simp⟩
  · rw [Bool.not_eq_true] at h
    rw [h]
    by_contra hcontra
    rw [Bool.not_eq_false] at hcontra
    obtain ⟨a, b, hab⟩ := containsSeg_iff_exists.mp hcontra
    have : l = b.reverse ++ tok ++ a.reverse := by
      have := congrArg List.reverse hab
      simpa [List.append_assoc] using this
    rw [containsSeg_iff_exists.mpr ⟨b.reverse, a.reverse, this⟩] at h
    exact Bool.true_eq_false.mp h

theorem containsSeg_stripList {tok : List Char} (htok : tok ≠ [])
    (hall : ∀ c ∈ tok, c.isWhitespace = false) (l : List Char) :
    containsSeg tok (stripList l) = containsSeg tok l := by
  obtain ⟨t0, tr, rfl⟩ : ∃ t0 tr, tok = t0 :: tr := by
    cases tok with
    | nil => exact absurd rfl htok
    | cons a b => exact ⟨a, b, rfl⟩
  have h0 : t0.isWhitespace = false := hall _ (by simp)
  obtain ⟨e, er, hrev⟩ : ∃ e er, (t0 :: tr).reverse = e :: er := by
    cases hx : (t0 :: tr).reverse with
    | nil => simp at hx
    | cons a b => exact ⟨a, b, rfl⟩
  have he : e.isWhitespace = false := by
    have : e ∈ (t0 :: tr).reverse := by rw [hrev]; simp
    exact hall _ (List.mem_reverse.mp this)
  rw [stripList]
  rw [← containsSeg_reverse (t0 :: tr)
    ((((l.dropWhile Char.isWhitespace).reverse.dropWhile Char.isWhitespace)).reverse)]
  rw [List.reverse_reverse, hrev, containsSeg_dropWhile he]
  rw [← hrev, containsSeg_reverse, containsSeg_dropWhile h0]

/-- C8: when the grade list is omitted, the facade defaults the grades to
1..6 exactly when the school name contains the elementary-school token
`초등학교`, and to 1..3 otherwise (middle/high or unknown level); and
running the tool with an omitted grade list is the same as running it with
that default. -/
theorem claim_C8 :
    (∀ name : String, defaultGradesFor name
        = if strContains name "초등학교" then [1, 2, 3, 4, 5, 6] else [1, 2, 3])
    ∧ (∀ (serviceKey : String) (infoResp : PyVal) (schedResp : PyVal → PyVal → PyVal)
        (name from_date to_date : String) (target_org : Option String),
        tool_run serviceKey infoResp schedResp name from_date to_date Option.none target_org
          = tool_run serviceKey infoResp schedResp name from_date to_date
              (some (defaultGradesFor name)) target_org) := by
  constructor
  · intro name
    have hEquiv : strContains (pyStrip name) "초등학교" = strContains name "초등학교" :=
      containsSeg_stripList (by decide) (by decide) name.toList
    simp only [defaultGradesFor, _detect_school_level, hEquiv]
    by_cases hc : strContains name "초등학교" = true
    · simp [hc]
    · rw [Bool.not_eq_true] at hc
      simp only [hc, Bool.false_eq_true, if_false]
      split_ifs <;> simp_all
  · intro serviceKey infoResp schedResp name from_date to_date target_org
    rfl

/-- C9: if normalizing either date fails, `_run` returns the error object
`valid=false / message with the date error detail / schedules=[]` and makes
no network call at all — the aggregator (and hence resolver and fetcher)
is never invoked. -/
theorem claim_C9 (serviceKey : String) (infoResp : PyVal)
    (schedResp : PyVal → PyVal → PyVal) (school_name from_date to_date : String)
    (grade : Option (List Int)) (target_org : Option String) :
    (∀ e, toYyyymmdd from_date = .error e →
      tool_run serviceKey infoResp schedResp school_name from_date to_date grade target_org
        = ([], .ok (.errObj ("날짜 형식 오류: " ++ errMessage e) [])))
    ∧ (∀ f e, toYyyymmdd from_date = .ok f → toYyyymmdd to_date = .error e →
      tool_run serviceKey infoResp schedResp school_name from_date to_date grade target_org
        = ([], .ok (.errObj ("날짜 형식 오류: " ++ errMessage e) []))) := by
  constructor
  · intro e he
    simp [tool_run, he]
  · intro f e hf he
    simp [tool_run, hf, he]

theorem claim_C9_witness :
    tool_run "KEY" (.dict []) (fun _ _ => .dict []) "은빛초등학교" "gibberish" "20251030"
        Option.none Option.none
      = ([], .ok (.errObj ("날짜 형식 오류: "
          ++ errMessage (.unsupported "gibberish")) [])) :=
  (claim_C9 "KEY" (.dict []) (fun _ _ => .dict []) "은빛초등학교" "gibberish" "20251030"
      Option.none Option.none).1 (.unsupported "gibberish") rfl

theorem schedRowStep_not_dict {r : PyVal} (h : isPyDict r = false) (acc : SchedAcc) :
    schedRowStep acc r = .error (pyTypeName r ++ " object has no attribute get") := by
  cases r <;> first | rfl | simp [isPyDict] at h

theorem schedRowStep_dict (acc : SchedAcc) (es : List (String × PyVal)) :
    schedRowStep acc (.dict es) = .ok (schedRowOut acc es) := rfl

theorem schedRowStep_ok_lengths {acc acc1 : SchedAcc} {r : PyVal}
    (h : schedRowStep acc r = .ok acc1) :
    acc1.event_date.length = acc.event_date.length + 1
    ∧ acc1.event_name.length = acc.event_name.length + 1
    ∧ acc1.event_type.length = acc.event_type.length + 1
    ∧ acc1.event_content.length = acc.event_content.length + 1
    ∧ acc1.g1.length = acc.g1.length + 1
    ∧ acc1.g2.length = acc.g2.length + 1
    ∧ acc1.g3.length = acc.g3.length + 1
    ∧ acc1.g4.length = acc.g4.length + 1
    ∧ acc1.g5.length = acc.g5.length + 1
    ∧ acc1.g6.length = acc.g6.length + 1 := by
  cases r with
  | dict es =>
    rw [schedRowStep_dict] at h
    have h2 : acc1 = schedRowOut acc es := (Except.ok.inj h).symm
    subst h2
    simp [schedRowOut]
  | none => rw [schedRowStep_not_dict (r := .none) rfl acc] at h; simp at h
  | str s => rw [schedRowStep_not_dict (r := .str s) rfl acc] at h; simp at h
  | int n => rw [schedRowStep_not_dict (r := .int n) rfl acc] at h; simp at h
  | bool b => rw [schedRowStep_not_dict (r := .bool b) rfl acc] at h; simp at h
  | list xs => rw [schedRowStep_not_dict (r := .list xs) rfl acc] at h; simp at h

theorem schedRows_none_lengths {rows : List PyVal} {acc acc2 : SchedAcc}
    (h : schedRows rows acc = (acc2, Option.none)) :
    acc2.event_date.length = acc.event_date.length + rows.length
    ∧ acc2.event_name.length = acc.event_name.length + rows.length
    ∧ acc2.event_type.length = acc.event_type.length + rows.length
    ∧ acc2.event_content.length = acc.event_content.length + rows.length
    ∧ acc2.g1.length = acc.g1.length + rows.length
    ∧ acc2.g2.length = acc.g2.length + rows.length
    ∧ acc2.g3.length = acc.g3.length + rows.length
    ∧ acc2.g4.length = acc.g4.length + rows.length
    ∧ acc2.g5.length = acc.g5.length + rows.length
    ∧ acc2.g6.length = acc.g6.length + rows.length := by
  induction rows generalizing acc with
  | nil =>
    simp only [schedRows, Prod.mk.injEq] at h
    rw [← h.1]
    simp
  | cons r rs ih =>
    rw [schedRows] at h
    cases hstep : schedRowStep acc r with
    | error e =>
      rw [hstep] at h
      simp at h
    | ok acc1 =>
      rw [hstep] at h
      have h1 := schedRowStep_ok_lengths hstep
      have h2 := ih h
      simp only [List.length_cons]
      omega

theorem schedRows_good_bad {good : List PyVal} {bad : PyVal} (hbad : isPyDict bad = false)
    (rest : List PyVal) :
    ∀ acc, (∀ r ∈ good, isPyDict r = true) →
    ∃ acc2, schedRows (good ++ bad :: rest) acc
        = (acc2, some (pyTypeName bad ++ " object has no attribute get"))
      ∧ acc2.event_date.length = acc.event_date.length + good.length := by
  induction good with
  | nil =>
    intro acc _
    refine ⟨acc, ?_, by simp⟩
    simp only [List.nil_append, schedRows, schedRowStep_not_dict hbad]
  | cons g gs ih =>
    intro acc hgood
    have hg : isPyDict g = true := hgood g (by simp)
    obtain ⟨es, rfl⟩ : ∃ es, g = .dict es := by
      cases g <;> simp [isPyDict] at hg
      exact ⟨_, rfl⟩
    obtain ⟨acc2, hrec, hlen⟩ := ih (schedRowOut acc es) (fun r hr => hgood r (by simp [hr]))
    refine ⟨acc2, ?_, ?_⟩
    · rw [List.cons_append, schedRows, schedRowStep_dict]
      exact hrec
    · have : (schedRowOut acc es).event_date.length = acc.event_date.length + 1 := by
        simp [schedRowOut]
      simp only [List.length_cons]
      omega

/-- C10: whenever `get_school_schedule` returns with `valid = true`, the four
event lists all have length `schedule_num`, `valid_grade` holds exactly six
flag lists, and each of them also has length `schedule_num` — so every
index the aggregator reads (`valid_grade[g][sch_idx]` and the event lists at
`sch_idx < schedule_num`, `g ≤ 5`) is in bounds. -/
theorem claim_C10 (serviceKey : String) (data school_code org_code : PyVal)
    (from_date to_date : String) (r : ScheduleResult)
    (h : get_school_schedule serviceKey data school_code org_code from_date to_date = .ok r)
    (hv : r.valid = true) :
    r.event_date.length = r.schedule_num
    ∧ r.event_name.length = r.schedule_num
    ∧ r.event_type.length = r.schedule_num
    ∧ r.event_content.length = r.schedule_num
    ∧ r.valid_grade.length = 6
    ∧ ∀ gl ∈ r.valid_grade, gl.length = r.schedule_num := by
  unfold get_school_schedule at h
  by_cases hk : (serviceKey == "") = true
  · rw [if_pos hk] at h
    rw [← Except.ok.inj h] at hv
    exact absurd hv (by simp [schedMissingKey])
  · rw [if_neg hk] at h
    cases hres : pyGetD data "RESULT" (.dict []) with
    | error e =>
      simp only [hres] at h
      exact absurd h (by simp)
    | ok resDict =>
      simp only [hres] at h
      cases hcode : pyGetD resDict "CODE" .none with
      | error e =>
        simp only [hcode] at h
        exact absurd h (by simp)
      | ok code =>
        simp only [hcode] at h
        by_cases hn : pyIsNone code = true
        · rw [if_pos hn] at h
          cases hext : schedExtract data with
          | error e =>
            simp only [hext] at h
            rw [← Except.ok.inj h] at hv
            exact absurd hv (by simp [schedFail])
          | ok rows =>
            simp only [hext] at h
            rcases hsr : schedRows rows emptySchedAcc with ⟨acc, errOpt⟩
            cases errOpt with
            | none =>
              simp only [hsr] at h
              rw [← Except.ok.inj h]
              have hlen := schedRows_none_lengths hsr
              simp only [emptySchedAcc] at hlen
              obtain ⟨h1, h2, h3, h4, h5, h6, h7, h8, h9, h10⟩ := hlen
              refine ⟨by simpa using h1, by simpa using h2, by simpa using h3,
                by simpa using h4, by simp [accGrades], ?_⟩
              intro gl hgl
              simp only [accGrades, List.mem_cons, List.not_mem_nil, or_false] at hgl
              rcases hgl with rfl | rfl | rfl | rfl | rfl | rfl <;> simp_all
            | some e =>
              simp only [hsr] at h
              rw [← Except.ok.inj h] at hv
              exact absurd hv (by simp [schedFail])
        · rw [if_neg hn] at h
          cases hmsg : pyGetD resDict "MESSAGE" .none with
          | error e =>
            simp only [hmsg] at h
            exact absurd h (by simp)
          | ok msg =>
            simp only [hmsg] at h
            rw [← Except.ok.inj h] at hv
            exact absurd hv (by simp)

theorem claim_C10_witness :
    c10res.event_date.length = c10res.schedule_num
    ∧ c10res.event_name.length = c10res.schedule_num
    ∧ c10res.event_type.length = c10res.schedule_num
    ∧ c10res.event_content.length = c10res.schedule_num
    ∧ c10res.valid_grade.length = 6
    ∧ ∀ gl ∈ c10res.valid_grade, gl.length = c10res.schedule_num :=
  claim_C10 "KEY" c10resp .none .none "20251001" "20251030" c10res rfl rfl

/-- C1 (amended): when a schedule row fails to parse, the whole fetch aborts
and returns `valid = false` with a diagnostic embedding the underlying error
and `schedule_num = 0`; however the partially accumulated `event_date` (and
sibling) lists are NOT cleared — they keep one entry per successfully parsed
row before the failure.  Downstream consumers are safe only because they
guard on `schedule_num`. -/
theorem claim_C1 (serviceKey : String) (data school_code org_code : PyVal)
    (from_date to_date : String) (resv codev : PyVal)
    (good : List PyVal) (bad : PyVal) (rest : List PyVal)
    (hkey : (serviceKey == "") = false)
    (hres : pyGetD data "RESULT" (.dict []) = .ok resv)
    (hcode : pyGetD resv "CODE" .none = .ok codev)
    (hnone : pyIsNone codev = true)
    (hext : schedExtract data = .ok (good ++ bad :: rest))
    (hgood : ∀ r ∈ good, isPyDict r = true)
    (hbad : isPyDict bad = false) :
    ∃ r, get_school_schedule serviceKey data school_code org_code from_date to_date = .ok r
      ∧ r.valid = false
      ∧ r.message = .str ("Error parsing school schedule: "
          ++ (pyTypeName bad ++ " object has no attribute get"))
      ∧ r.schedule_num = 0
      ∧ r.event_date.length = good.length := by
  obtain ⟨acc2, hsr, hlen⟩ := schedRows_good_bad hbad rest emptySchedAcc hgood
  refine ⟨schedFail acc2 (pyTypeName bad ++ " object has no attribute get"),
    ?_, rfl, rfl, rfl, ?_⟩
  · unfold get_school_schedule
    rw [if_neg (by simp [hkey])]
    simp only [hres, hcode]
    rw [if_pos hnone]
    simp only [hext, hsr]
  · show acc2.event_date.length = good.length
    simpa [emptySchedAcc] using hlen

theorem claim_C1_witness :
    ∃ r, get_school_schedule "KEY" c1resp .none .none "20251001" "20251030" = .ok r
      ∧ r.valid = false
      ∧ r.message = .str ("Error parsing school schedule: "
          ++ (pyTypeName (.int 7) ++ " object has no attribute get"))
      ∧ r.schedule_num = 0
      ∧ r.event_date.length = [c1row].length :=
  claim_C1 "KEY" c1resp .none .none "20251001" "20251030" (.dict []) .none
    [c1row] (.int 7) [] rfl rfl rfl rfl rfl
    (by intro r hr; simp at hr; rw [hr]; rfl) rfl

/-- C1 counterexample: for a response whose row list is one good dict row
followed by a non-dict entry, the fetch returns `valid = false` and
`schedule_num = 0` as the claim says, but the returned `event_date` list is
NOT empty — it still holds the entry accumulated from the first row, so the
partial data is not discarded. -/
theorem claim_C1_counterexample :
    (get_school_schedule "KEY" c1resp .none .none "20251001" "20251030").map
        (fun r => (r.valid, r.schedule_num, r.event_date.isEmpty, r.event_date))
      = .ok (false, 0, false, [.str "20251015"]) := rfl

/-- C2 (amended): `get_school_info` returns `valid = false` with empty match
lists and a diagnostic — without crashing — when the row extraction raises,
i.e. when the payload has no usable `schoolInfo` list at all (missing key or
empty list, so that indexing `[-1]` fails).  A payload whose last
`schoolInfo` element merely lacks the `row` key does NOT produce this error
result: `.get("row", [])` substitutes an empty row list and the call returns
`valid = true` with zero matches (the legitimate empty outcome) — see the
counterexample. -/
theorem claim_C2 (serviceKey : String) (data : PyVal) (school_name : String)
    (resv codev : PyVal)
    (hkey : (serviceKey == "") = false)
    (hres : pyGetD data "RESULT" (.dict []) = .ok resv)
    (hcode : pyGetD resv "CODE" .none = .ok codev)
    (hnone : pyIsNone codev = true) :
    (∀ e, infoExtract data = .error e →
      get_school_info serviceKey data school_name
        = .ok { valid := false, message := .str ("Error parsing school info: " ++ e),
                school_num := 0, school_name := [], school_code := [],
                org_name := [], org_code := [] })
    ∧ (infoExtract data = .ok [] →
      get_school_info serviceKey data school_name
        = .ok { valid := true, message := .str "Success to find", school_num := 0,
                school_name := [], school_code := [], org_name := [], org_code := [] }) := by
  constructor
  · intro e hext
    unfold get_school_info
    rw [if_neg (by simp [hkey])]
    simp only [hres, hcode]
    rw [if_pos hnone]
    simp only [hext]
  · intro hext
    unfold get_school_info
    rw [if_neg (by simp [hkey])]
    simp only [hres, hcode]
    rw [if_pos hnone]
    simp only [hext, infoRows, emptyInfoAcc, List.length_nil]

theorem claim_C2_witness :
    get_school_info "KEY" (.dict []) "은빛초등학교"
      = .ok { valid := false,
              message := .str ("Error parsing school info: " ++ "list index out of range"),
              school_num := 0, school_name := [], school_code := [],
              org_name := [], org_code := [] }
    ∧ get_school_info "KEY" c2resp "은빛초등학교"
      = .ok { valid := true, message := .str "Success to find", school_num := 0,
              school_name := [], school_code := [], org_name := [], org_code := [] } :=
  ⟨(claim_C2 "KEY" (.dict []) "은빛초등학교" (.dict []) .none rfl rfl rfl rfl).1
      "list index out of range" rfl,
   (claim_C2 "KEY" c2resp "은빛초등학교" (.dict []) .none rfl rfl rfl rfl).2 rfl⟩

/-- C2 counterexample: a school-lookup payload whose last `schoolInfo`
element lacks the `row` key yields `valid = TRUE` with zero matches and the
success message — not the `valid = false` error result the claim asserts. -/
theorem claim_C2_counterexample :
    (get_school_info "KEY" c2resp "은빛초등학교").map
        (fun r => (r.valid, r.school_num, r.school_name.isEmpty))
      = .ok (true, 0, true) := rfl

theorem ttLoop_skip (serviceKey : String) (schedResp : PyVal → PyVal → PyVal)
    (r : SchoolInfoResult) (from_date to_date : String) (tg : List Int)
    (target_org : Option String) {l1 : List Nat} (l2 : List Nat)
    (h : ∀ i ∈ l1, acceptMatch r target_org i = false) :
    ttLoop serviceKey schedResp r from_date to_date tg target_org (l1 ++ l2)
      = ttLoop serviceKey schedResp r from_date to_date tg target_org l2 := by
  induction l1 with
  | nil => rfl
  | cons i l ih =>
    rw [List.cons_append, ttLoop, if_neg (by simp [h i (by simp)])]
    exact ih fun i2 hi2 => h i2 (by simp [hi2])

theorem ttLoop_accept_head (serviceKey : String) (schedResp : PyVal → PyVal → PyVal)
    (r : SchoolInfoResult) (from_date to_date : String) (tg : List Int)
    (target_org : Option String) {j : Nat} (rest : List Nat)
    (hacc : acceptMatch r target_org j = true) :
    (ttLoop serviceKey schedResp r from_date to_date tg target_org (j :: rest)).1
      = [.sched (r.school_code.getD j .none) (r.org_code.getD j .none)] := by
  rw [ttLoop, if_pos hacc]
  cases hgss : get_school_schedule serviceKey
      (schedResp (r.school_code.getD j .none) (r.org_code.getD j .none))
      (r.school_code.getD j .none) (r.org_code.getD j .none) from_date to_date with
  | error e => rfl
  | ok sched => rfl

/-- C3: when resolution yields two or more matches, the aggregator queries
the schedule of exactly one school — the first match accepted by the
(exact-equality) organization filter — and of no other, whether or not the
fetch produced events: the network trace of the whole call is the single
resolver call followed by the single schedule call for that match. -/
theorem claim_C3 (serviceKey : String) (infoResp : PyVal)
    (schedResp : PyVal → PyVal → PyVal) (school_name from_date to_date : String)
    (grade : List Int) (t : String) (r : SchoolInfoResult) (j : Nat)
    (hinfo : get_school_info serviceKey infoResp school_name = .ok r)
    (hv : r.valid = true) (hn : 2 ≤ r.school_num)
    (hj : j < r.school_num)
    (hacc : acceptMatch r (some t) j = true)
    (hmin : ∀ i, i < j → acceptMatch r (some t) i = false) :
    (get_school_timetable serviceKey infoResp schedResp school_name from_date to_date
        grade (some t)).1
      = [.info school_name,
         .sched (r.school_code.getD j .none) (r.org_code.getD j .none)] := by
  unfold get_school_timetable
  simp only [hinfo]
  have hcond : (r.valid && decide (0 < r.school_num)) = true := by
    rw [hv]
    simp
    omega
  rw [if_pos hcond]
  have hsplit : List.range r.school_num
      = List.range j ++ (j :: List.range' (j + 1) (r.school_num - j - 1)) := by
    rw [List.range_eq_range', show r.school_num = (r.school_num - j) + j by omega,
      ← List.range'_append 0 j (r.school_num - j) 1]
    rw [List.range_eq_range']
    congr 1
    rw [show r.school_num - j = (r.school_num - j - 1) + 1 by omega, List.range'_succ]
    simp
  rw [hsplit, ttLoop_skip serviceKey schedResp r from_date to_date (target_grade grade)
      (some t) _ (fun i hi => hmin i (List.mem_range.mp hi))]
  rw [ttLoop_accept_head serviceKey schedResp r from_date to_date (target_grade grade)
      (some t) _ hacc]

theorem claim_C3_witness :
    (get_school_timetable "KEY" c3resp (fun _ _ => .dict []) "은빛초등학교" "20251001"
        "20251030" [1, 2, 3] (some "경기도교육청")).1
      = [.info "은빛초등학교",
         .sched (c3info.school_code.getD 1 .none) (c3info.org_code.getD 1 .none)] :=
  claim_C3 "KEY" c3resp (fun _ _ => .dict []) "은빛초등학교" "20251001" "20251030"
    [1, 2, 3] "경기도교육청" c3info 1 rfl rfl (by decide) (by decide) rfl
    (fun i hi => by interval_cases i; rfl)

end QKS

